import Mathlib

/-
Verification of the cozo temporal-interval algebra and the stack-graph
fixed-rule boundary code.

The definitions below are shallow embeddings of the Rust source:

  * cozo-core/src/data/functions.rs — interval / Allen / bucket / recurrence
    operators.  `DataValue` is restricted to the constructors these operators
    inspect (`Null`, `Bool`, `Num(Int)` as `Int`, `Str`, `List`); the original
    enum has further constructors (`Bytes`, `Uuid`, …) that none of the
    verified operators produce or consume on the inputs quantified here.
    Errors are `Except String` with abbreviated messages.  Rust `i64`
    arithmetic is modelled two's-complement wrapping via `wrap64`
    (release-profile semantics); comparisons carry over to `Int` unchanged.
    Rust's truncating `/` and `%` are `Int.tdiv` / `Int.tmod`, and
    `i64::div_euclid` is `Int.ediv`.
  * cozo-core/src/fixed_rule/algos/stack_graph/{source_pos,state,query}.rs —
    reference-position parsing, `State::new` input indexing,
    `decompress_if_needed`, and the `Querier::definitions` driver loop.
    External collaborators (the Zstd decompressor, the chrono timezone
    database, the stack-graphs stitcher) enter as explicit function
    parameters so that theorems quantify over all of their behaviours.
-/

namespace Cozo

/-- Two's-complement wrap of a mathematical integer into the `i64` range,
modelling Rust release-profile overflow semantics. -/
def wrap64 (n : Int) : Int := (n + 2 ^ 63) % 2 ^ 64 - 2 ^ 63

/-- The i64 range predicate. -/
def inI64 (n : Int) : Prop := -(2 ^ 63) ≤ n ∧ n < 2 ^ 63

instance (n : Int) : Decidable (inI64 n) := by unfold inI64; infer_instance

/-- Shallow model of cozo `DataValue`, restricted to the constructors the
verified operators inspect.  `Int` models `DataValue::Num(Num::Int)`. -/
inductive DataValue where
  | Null : DataValue
  | Bool (b : Bool) : DataValue
  | Int (n : Int) : DataValue
  | Str (s : List Char) : DataValue
  | List (l : List DataValue) : DataValue

/-- Models `DataValue::get_int` on the constructors present here. -/
def getInt : DataValue → Option Int
  | .Int n => some n
  | _ => none

/-- Models `DataValue::get_slice`. -/
def getSlice : DataValue → Option (List DataValue)
  | .List l => some l
  | _ => none

/-- Models `DataValue::get_str`. -/
def getStr : DataValue → Option (List Char)
  | .Str s => some s
  | _ => none

/-- Models `Option::ok_or_else` followed by `?`: a missing value becomes an
`Except.error` with the given message. -/
def req {α : Type} (o : Option α) (msg : String) : Except String α :=
  match o with
  | some a => .ok a
  | none => .error msg

/-- Models the Rust pattern of a slice length-2 check followed by indexing. -/
def twoElems (l : List DataValue) (msg : String) :
    Except String (DataValue × DataValue) :=
  match l with
  | [x, y] => .ok (x, y)
  | _ => .error msg

/-- Whether an `Except` computation succeeded. -/
def isOk {ε α : Type} : Except ε α → Bool
  | .ok _ => true
  | .error _ => false

/-- Encoding of an interval as the `DataValue` list the operators exchange. -/
def encIv (s e : Int) : DataValue := .List [.Int s, .Int e]

/-- Shared argument extraction for binary interval operators that read all
four bounds `a[0], a[1], b[0], b[1]` (after the joint length check), exactly
as the Rust functions do. -/
def twoIvs (a b : DataValue) (who : String) :
    Except String ((Int × Int) × (Int × Int)) := do
  let al ← req (getSlice a) (who ++ " expects first interval as list")
  let bl ← req (getSlice b) (who ++ " expects second interval as list")
  if al.length ≠ 2 ∨ bl.length ≠ 2 then
    throw (who ++ " expects intervals with exactly 2 elements")
  let s1 ← req (getInt (al.getD 0 .Null)) "interval start must be integer"
  let e1 ← req (getInt (al.getD 1 .Null)) "interval end must be integer"
  let s2 ← req (getInt (bl.getD 0 .Null)) "interval start must be integer"
  let e2 ← req (getInt (bl.getD 1 .Null)) "interval end must be integer"
  return ((s1, e1), (s2, e2))

/-- Extraction for unary interval operators: list, length-2 check, two ints. -/
def oneIv (a : DataValue) (who : String) : Except String (Int × Int) := do
  let al ← req (getSlice a) (who ++ " expects an interval as list")
  if al.length ≠ 2 then
    throw (who ++ " expects interval with exactly 2 elements")
  let s ← req (getInt (al.getD 0 .Null)) "interval start must be integer"
  let e ← req (getInt (al.getD 1 .Null)) "interval end must be integer"
  return (s, e)

/-- Embeds `op_interval` (functions.rs:2846). -/
def op_interval (a0 a1 : DataValue) : Except String DataValue := do
  let s ← req (getInt a0) "interval expects start as integer"
  let e ← req (getInt a1) "interval expects end as integer"
  if s ≥ e then
    throw "interval expects start lt end"
  return .List [.Int s, .Int e]

/-- Embeds `op_interval_len` (functions.rs:2862).  No well-formedness check;
the subtraction wraps in `i64`. -/
def op_interval_len (a0 : DataValue) : Except String DataValue := do
  let (s, e) ← oneIv a0 "interval_len"
  return .Int (wrap64 (e - s))

/-- Embeds `op_interval_intersects` (functions.rs:2878). -/
def op_interval_intersects (a b : DataValue) : Except String DataValue := do
  let ((s1, e1), (s2, e2)) ← twoIvs a b "interval_intersects"
  return .Bool (decide (s1 < e2 ∧ s2 < e1))

/-- Embeds `op_interval_overlap` (functions.rs:2900). -/
def op_interval_overlap (a b : DataValue) : Except String DataValue := do
  let ((s1, e1), (s2, e2)) ← twoIvs a b "interval_overlap"
  let s := max s1 s2
  let e := min e1 e2
  if s < e then
    return .List [.Int s, .Int e]
  else
    return .Null

/-- Embeds `op_interval_union` (functions.rs:2928).  Note the merge condition
`ae > bs && as < be` is strict overlap: touching intervals are not merged. -/
def op_interval_union (a b : DataValue) : Except String DataValue := do
  let ((s1, e1), (s2, e2)) ← twoIvs a b "interval_union"
  if e1 > s2 ∧ s1 < e2 then
    return .List [.List [.Int (min s1 s2), .Int (max e1 e2)]]
  else
    if s1 < s2 then
      return .List [encIv s1 e1, encIv s2 e2]
    else
      return .List [encIv s2 e2, encIv s1 e1]

/-- Embeds `op_interval_minus` (functions.rs:2970). -/
def op_interval_minus (a b : DataValue) : Except String DataValue := do
  let ((s1, e1), (s2, e2)) ← twoIvs a b "interval_minus"
  if e1 ≤ s2 ∨ e2 ≤ s1 then
    return .List [encIv s1 e1]
  else if s2 ≤ s1 ∧ e2 ≥ e1 then
    return .List []
  else if s2 ≤ s1 ∧ e2 < e1 then
    return .List [encIv e2 e1]
  else if s2 > s1 ∧ e2 ≥ e1 then
    return .List [encIv s1 s2]
  else
    return .List [encIv s1 s2, encIv e2 e1]

/-- Embeds `op_interval_adjacent` (functions.rs:3019). -/
def op_interval_adjacent (a b : DataValue) : Except String DataValue := do
  let ((s1, e1), (s2, e2)) ← twoIvs a b "interval_adjacent"
  return .Bool (decide (e1 = s2 ∨ e2 = s1))

/-- Embeds `op_interval_shift` (functions.rs:3096).  The additions wrap. -/
def op_interval_shift (a0 a1 : DataValue) : Except String DataValue := do
  let al ← req (getSlice a0) "interval_shift expects an interval as list"
  let d ← req (getInt a1) "interval_shift expects shift amount as integer"
  if al.length ≠ 2 then
    throw "interval_shift expects interval with exactly 2 elements"
  let s ← req (getInt (al.getD 0 .Null)) "interval start must be integer"
  let e ← req (getInt (al.getD 1 .Null)) "interval end must be integer"
  return .List [.Int (wrap64 (s + d)), .Int (wrap64 (e + d))]

/-- Embeds `op_interval_contains` (functions.rs:3118). -/
def op_interval_contains (a0 a1 : DataValue) : Except String DataValue := do
  let al ← req (getSlice a0) "interval_contains expects an interval as list"
  let t ← req (getInt a1) "interval_contains expects time as integer"
  if al.length ≠ 2 then
    throw "interval_contains expects interval with exactly 2 elements"
  let s ← req (getInt (al.getD 0 .Null)) "interval start must be integer"
  let e ← req (getInt (al.getD 1 .Null)) "interval end must be integer"
  return .Bool (decide (s ≤ t ∧ t < e))

/-- Embeds `op_interval_contains_interval` (functions.rs:3137). -/
def op_interval_contains_interval (a b : DataValue) : Except String DataValue := do
  let ((s1, e1), (s2, e2)) ← twoIvs a b "interval_contains_interval"
  return .Bool (decide (s1 ≤ s2 ∧ e2 ≤ e1))

/-- Extraction shared by `op_allen_before` / `op_allen_meets`, which read only
`a[1]` and `b[0]` after the joint length check, exactly as the Rust code. -/
def endStart (a b : DataValue) (who : String) : Except String (Int × Int) := do
  let al ← req (getSlice a) (who ++ " expects first interval as list")
  let bl ← req (getSlice b) (who ++ " expects second interval as list")
  if al.length ≠ 2 ∨ bl.length ≠ 2 then
    throw (who ++ " expects intervals with exactly 2 elements")
  let e1 ← req (getInt (al.getD 1 .Null)) "interval end must be integer"
  let s2 ← req (getInt (bl.getD 0 .Null)) "interval start must be integer"
  return (e1, s2)

/-- Embeds `op_allen_before` (functions.rs:3158). -/
def op_allen_before (a b : DataValue) : Except String DataValue := do
  let (e1, s2) ← endStart a b "allen_before"
  return .Bool (decide (e1 < s2))

/-- Embeds `op_allen_meets` (functions.rs:3177). -/
def op_allen_meets (a b : DataValue) : Except String DataValue := do
  let (e1, s2) ← endStart a b "allen_meets"
  return .Bool (decide (e1 = s2))

/-- Embeds `op_allen_overlaps` (functions.rs:3196). -/
def op_allen_overlaps (a b : DataValue) : Except String DataValue := do
  let ((s1, e1), (s2, e2)) ← twoIvs a b "allen_overlaps"
  return .Bool (decide (s1 < s2 ∧ s2 < e1 ∧ e1 < e2))

/-- Embeds `op_allen_starts` (functions.rs:3217). -/
def op_allen_starts (a b : DataValue) : Except String DataValue := do
  let ((s1, e1), (s2, e2)) ← twoIvs a b "allen_starts"
  return .Bool (decide (s1 = s2 ∧ e1 < e2))

/-- Embeds `op_allen_during` (functions.rs:3238). -/
def op_allen_during (a b : DataValue) : Except String DataValue := do
  let ((s1, e1), (s2, e2)) ← twoIvs a b "allen_during"
  return .Bool (decide (s2 < s1 ∧ e1 < e2))

/-- Embeds `op_allen_finishes` (functions.rs:3259). -/
def op_allen_finishes (a b : DataValue) : Except String DataValue := do
  let ((s1, e1), (s2, e2)) ← twoIvs a b "allen_finishes"
  return .Bool (decide (s1 > s2 ∧ e1 = e2))

/-- Embeds `op_allen_equals` (functions.rs:3280). -/
def op_allen_equals (a b : DataValue) : Except String DataValue := do
  let ((s1, e1), (s2, e2)) ← twoIvs a b "allen_equals"
  return .Bool (decide (s1 = s2 ∧ e1 = e2))

/-- Embeds `op_allen_after` (functions.rs:3301): argument swap of before. -/
def op_allen_after (a b : DataValue) : Except String DataValue :=
  op_allen_before b a

/-- Embeds `op_allen_met_by` (functions.rs:3307). -/
def op_allen_met_by (a b : DataValue) : Except String DataValue :=
  op_allen_meets b a

/-- Embeds `op_allen_overlapped_by` (functions.rs:3313). -/
def op_allen_overlapped_by (a b : DataValue) : Except String DataValue :=
  op_allen_overlaps b a

/-- Embeds `op_allen_started_by` (functions.rs:3319). -/
def op_allen_started_by (a b : DataValue) : Except String DataValue :=
  op_allen_starts b a

/-- Embeds `op_allen_contains` (functions.rs:3325). -/
def op_allen_contains (a b : DataValue) : Except String DataValue :=
  op_allen_during b a

/-- Embeds `op_allen_finished_by` (functions.rs:3331). -/
def op_allen_finished_by (a b : DataValue) : Except String DataValue :=
  op_allen_finishes b a

/-- Unwraps a boolean operator result; `false` on anything else. -/
def okBool : Except String DataValue → Bool
  | .ok (.Bool b) => b
  | _ => false

/-- Number of `true` entries of a boolean list. -/
def countTrue : List Bool → Nat
  | [] => 0
  | b :: t => (if b then 1 else 0) + countTrue t

/-- The truth values of the thirteen Allen predicates on intervals
`[s1,e1)`, `[s2,e2)` in source order. -/
def allenResults (s1 e1 s2 e2 : Int) : List Bool :=
  let a := encIv s1 e1
  let b := encIv s2 e2
  [ okBool (op_allen_before a b), okBool (op_allen_meets a b),
    okBool (op_allen_overlaps a b), okBool (op_allen_starts a b),
    okBool (op_allen_during a b), okBool (op_allen_finishes a b),
    okBool (op_allen_equals a b), okBool (op_allen_after a b),
    okBool (op_allen_met_by a b), okBool (op_allen_overlapped_by a b),
    okBool (op_allen_started_by a b), okBool (op_allen_contains a b),
    okBool (op_allen_finished_by a b) ]

/-- Embeds `op_bucket_of` (functions.rs:3839).  `div_euclid` is `Int.ediv`;
the subtraction `t - epoch0` wraps in `i64`.  The Euclidean division itself
cannot overflow because the period is checked positive. -/
def op_bucket_of (a0 a1 a2 : DataValue) : Except String DataValue := do
  let t ← req (getInt a0) "bucket_of expects timestamp as integer"
  let period ← req (getInt a1) "bucket_of expects period as integer"
  let epoch0 ← req (getInt a2) "bucket_of expects epoch0 as integer"
  if period ≤ 0 then
    throw "Period must be positive"
  return .Int (Int.ediv (wrap64 (t - epoch0)) period)

/-- Embeds `op_bucket_start` (functions.rs:3859).  Both the multiplication
and the addition wrap in `i64`. -/
def op_bucket_start (a0 a1 a2 : DataValue) : Except String DataValue := do
  let k ← req (getInt a0) "bucket_start expects bucket number as integer"
  let period ← req (getInt a1) "bucket_start expects period as integer"
  let epoch0 ← req (getInt a2) "bucket_start expects epoch0 as integer"
  if period ≤ 0 then
    throw "Period must be positive"
  return .Int (wrap64 (epoch0 + wrap64 (k * period)))

/-- The well-formedness filter and extraction loop of
`op_normalize_intervals` (functions.rs:3556-3570): degenerate entries with
`s ≥ e` are dropped, malformed entries raise. -/
def parseWfIvs : List DataValue → Except String (List (Int × Int))
  | [] => .ok []
  | iv :: rest =>
    match getSlice iv with
    | none => .error "each element must be an interval"
    | some l =>
      match l with
      | [x, y] =>
        match getInt x with
        | none => .error "interval start must be integer"
        | some s =>
          match getInt y with
          | none => .error "interval end must be integer"
          | some e =>
            match parseWfIvs rest with
            | .error err => .error err
            | .ok tail => if s < e then .ok ((s, e) :: tail) else .ok tail
      | _ => .error "each interval must have exactly 2 elements"

/-- Rust `Vec::sort_by_key(|&(s, _)| s)` is a stable sort by the interval
start; `List.insertionSort` with this relation computes the same (unique)
stable sort. -/
def sortIvs (l : List (Int × Int)) : List (Int × Int) :=
  List.insertionSort (fun p q : Int × Int => p.1 ≤ q.1) l

/-- The merge loop of `op_normalize_intervals` (functions.rs:3580-3601):
`cur` is the `current` accumulator, merged with the next interval whenever
`current.end ≥ next.start` (adjacency counts), otherwise emitted. -/
def mergeIvs : Int × Int → List (Int × Int) → List (Int × Int)
  | cur, [] => [cur]
  | cur, (s, e) :: rest =>
    if cur.2 ≥ s then
      mergeIvs (cur.1, max cur.2 e) rest
    else
      cur :: mergeIvs (s, e) rest

/-- Sort-then-merge on the already-filtered interval list, mirroring
functions.rs:3572-3601 (the empty check, the sort, and the fold). -/
def normCore (l : List (Int × Int)) : List (Int × Int) :=
  match sortIvs l with
  | [] => []
  | c :: rest => mergeIvs c rest

/-- The pure content of `op_normalize_intervals` on decoded intervals:
filter out degenerates, sort by start, merge overlapping or adjacent. -/
def normalizeIvsFn (xs : List (Int × Int)) : List (Int × Int) :=
  normCore (xs.filter (fun p => decide (p.1 < p.2)))

/-- Encodes a decoded interval list back into a `DataValue`. -/
def encIvs (l : List (Int × Int)) : DataValue :=
  .List (l.map (fun p => encIv p.1 p.2))

/-- Embeds `op_normalize_intervals` (functions.rs:3546). -/
def op_normalize_intervals (a0 : DataValue) : Except String DataValue :=
  match getSlice a0 with
  | none => .error "normalize_intervals expects a list of intervals"
  | some intervals =>
    if intervals.isEmpty then .ok (.List [])
    else
      match parseWfIvs intervals with
      | .error e => .error e
      | .ok ivs => .ok (encIvs (normCore ivs))

/-- Strict-gap relation between consecutive normalized intervals: the next
interval starts strictly after the previous one ends.  Together with
well-formedness of each element this captures sorted order, pairwise
disjointness and non-adjacency. -/
def gapRel (p q : Int × Int) : Prop := p.2 < q.1

/-- Models chrono `LocalResult<DateTime>`: converting a local wall time to an
instant can hit a DST gap (no instant), a unique instant, or a fold (two
instants). -/
inductive LocalRes where
  | missing : LocalRes
  | single (t : Int) : LocalRes
  | ambiguous (t1 t2 : Int) : LocalRes

/-- Models `LocalResult::single`. -/
def LocalRes.toSingle : LocalRes → Option Int
  | .single t => some t
  | _ => none

/-- Models `LocalResult::earliest`. -/
def LocalRes.earliest : LocalRes → Option Int
  | .single t => some t
  | .ambiguous t1 _ => some t1
  | .missing => none

/-- Models `LocalResult::latest`. -/
def LocalRes.latest : LocalRes → Option Int
  | .single t => some t
  | .ambiguous _ t2 => some t2
  | .missing => none

/-- The `earliest().or_else(|| latest())` resolution used by the daily,
monthly and yearly expanders (e.g. functions.rs:4005-4010). -/
def resolveEL (r : LocalRes) : Option Int :=
  match r.earliest with
  | some t => some t
  | none => r.latest

/-- Abstract calendar-and-timezone oracle standing for the chrono and
chrono-tz collaborators.  Local civil dates are modelled as day indices
(days since 1970-01-01).
* `toLocalDay t` is the local date of UTC instant `t` (seconds):
  `DateTime::from_timestamp` (resp. `Utc.timestamp_opt(..).single()`)
  followed by `with_timezone` and `date_naive`; `none` models a timestamp
  outside chrono's representable range.
* `toLocalYM t` / `toLocalY t` are the local (year, month) and year of `t`,
  failing under the same condition.
* `succFails d` is true when `NaiveDate::succ_opt` on day `d` returns
  `None` (calendar overflow at `NaiveDate::MAX`).
* `fromYmd y m day` is `NaiveDate::from_ymd_opt` as a day index, `none` on
  an invalid civil date.
* `resolve d h m` is `from_local_datetime` of `(day d, h:m:00)`, giving
  instants in UTC seconds. -/
structure Tz where
  toLocalDay : Int → Option Int
  toLocalYM : Int → Option (Int × Nat)
  toLocalY : Int → Option Int
  succFails : Int → Bool
  fromYmd : Int → Nat → Nat → Option Int
  resolve : Int → Nat → Nat → LocalRes

/-- Weekday of a day index, 1 = Monday .. 7 = Sunday (1970-01-01 is a
Thursday), the pure calendar function behind `NaiveDate::weekday`. -/
def weekdayOf (d : Int) : Int := (d + 3).emod 7 + 1

/-- Rust `as u32` wrapping cast from `i64`. -/
def asU32 (n : Int) : Nat := (n.emod (2 ^ 32)).toNat

/-- The day loop of `op_expand_weekly_days` (functions.rs:3381-3421): for
each day index from the start date (exclusive of the end date), if the
weekday is requested the local boundary times are resolved with
`from_local_datetime(..).single()`, and a `None` single (DST gap or fold)
raises.  `and_hms_opt` failure (hour ≥ 24 or minute ≥ 60 after the wrapping
cast) also raises, and so does calendar overflow of the loop's `succ_opt`
(functions.rs:3419-3420, message "Date overflow"). -/
def weeklyLoop (tz : Tz) (byWday : List Int) (startMin endMin : Int) :
    Nat → Int → Except String (List (Int × Int))
  | 0, _ => .ok []
  | fuel + 1, d =>
    if byWday.contains (weekdayOf d) then
      let sh := asU32 (startMin.tdiv 60)
      let sm := asU32 (startMin.tmod 60)
      if sh ≥ 24 ∨ sm ≥ 60 then .error "Invalid start time"
      else
        match (tz.resolve d sh sm).toSingle with
        | none => .error "Ambiguous start time in timezone"
        | some ts =>
          let eh := asU32 (endMin.tdiv 60)
          let em := asU32 (endMin.tmod 60)
          if eh ≥ 24 ∨ em ≥ 60 then .error "Invalid end time"
          else
            match (tz.resolve d eh em).toSingle with
            | none => .error "Ambiguous end time in timezone"
            | some te =>
              if tz.succFails d then .error "Date overflow"
              else
                match weeklyLoop tz byWday startMin endMin fuel (d + 1) with
                | .error e => .error e
                | .ok rest => .ok ((ts, te) :: rest)
    else
      if tz.succFails d then .error "Date overflow"
      else weeklyLoop tz byWday startMin endMin fuel (d + 1)

/-- Embeds `op_expand_weekly_days` (functions.rs:3337): validate the window
timestamps (`Utc.timestamp_opt(..).single()`, functions.rs:3367-3374), then
iterate the local dates of the window (`while current_date < end_date`) over
the weekly loop.  Argument and timezone-string validation is handled before
this point in the Rust code and is not modelled. -/
def op_expand_weekly_days (tz : Tz) (startTs endTs : Int) (byWday : List Int)
    (startMin endMin : Int) : Except String (List (Int × Int)) :=
  match tz.toLocalDay startTs with
  | none => .error "Invalid start timestamp"
  | some d0 =>
    match tz.toLocalDay endTs with
    | none => .error "Invalid end timestamp"
    | some dEnd =>
      weeklyLoop tz byWday startMin endMin (dEnd - d0).toNat d0

/-- One target date of `op_expand_daily` (functions.rs:3992-4024): build the
local start and end wall times (skipping the date when `and_hms_opt` fails,
or when `h1 ≥ 1440` and `succ_opt().and_then(and_hms_opt)` fails), then
resolve each with `earliest().or_else(latest())`; a DST gap at either
boundary drops the instance (`if let (Some, Some)`), never raising.  The
returned bounds are epoch milliseconds.  The same per-date block appears
verbatim in `op_expand_monthly` (functions.rs:4088-4120) and
`op_expand_yearly` (functions.rs:4198-4231). -/
def dailyDayIvs (tz : Tz) (h0 h1 : Int) (d : Int) : Option (Int × Int) :=
  let h0h := asU32 (h0.tdiv 60)
  let h0m := asU32 (h0.tmod 60)
  if h0h ≥ 24 ∨ h0m ≥ 60 then none
  else
    let endLocal : Option (Int × Nat × Nat) :=
      if h1 ≥ 1440 then
        if tz.succFails d then none else some (d + 1, 0, 0)
      else
        let h1h := asU32 (h1.tdiv 60)
        let h1m := asU32 (h1.tmod 60)
        if h1h ≥ 24 ∨ h1m ≥ 60 then none else some (d, h1h, h1m)
    match endLocal with
    | none => none
    | some (de, eh, em) =>
      match resolveEL (tz.resolve d h0h h0m), resolveEL (tz.resolve de eh em) with
      | some ts, some te => some (wrap64 (ts * 1000), wrap64 (te * 1000))
      | _, _ => none

/-- The interval contribution of one target date, including the
window-overlap filter `iv_end_ms > start_ms && iv_start_ms < end_ms`
(functions.rs:4017, 4113, 4223), shared by the daily, monthly and yearly
expanders. -/
def dateInstance (tz : Tz) (h0 h1 startMs endMs d : Int) : List (Int × Int) :=
  match dailyDayIvs tz h0 h1 d with
  | some (a, b) => if b > startMs ∧ a < endMs then [(a, b)] else []
  | none => []

/-- The day loop of `op_expand_daily` (functions.rs:3990-4029).  Each
iteration ends with `current_date = current_date.succ_opt().ok_or_else(..)?`
(functions.rs:4027-4028): calendar overflow of `succ_opt` raises "Failed to
increment date" and discards everything collected so far. -/
def dailyLoop (tz : Tz) (h0 h1 startMs endMs : Int) :
    Nat → Int → Except String (List (Int × Int))
  | 0, _ => .ok []
  | fuel + 1, d =>
    if tz.succFails d then .error "Failed to increment date"
    else
      match dailyLoop tz h0 h1 startMs endMs fuel (d + 1) with
      | .error e => .error e
      | .ok rest => .ok (dateInstance tz h0 h1 startMs endMs d ++ rest)

/-- Embeds `op_expand_daily` (functions.rs:3952): validate the window
timestamps (`DateTime::from_timestamp`, functions.rs:3973-3978), then
iterate the local dates of the window (`while current_date <= end_date`,
hence the `+ 1`) over the day loop. -/
def op_expand_daily (tz : Tz) (h0 h1 startMs endMs : Int) :
    Except String (List (Int × Int)) :=
  match tz.toLocalDay (startMs.tdiv 1000) with
  | none => .error "Invalid start timestamp"
  | some d0 =>
    match tz.toLocalDay (endMs.tdiv 1000) with
    | none => .error "Invalid end timestamp"
    | some dEnd =>
      dailyLoop tz h0 h1 startMs endMs (dEnd - d0 + 1).toNat d0

/-- `is_leap_year` (functions.rs:4249-4251); Rust `%` on `i32` is `tmod`. -/
def is_leap_year (year : Int) : Bool :=
  (year.tmod 4 == 0 && year.tmod 100 != 0) || year.tmod 400 == 0

/-- `days_in_month_helper` (functions.rs:4239-4246). -/
def days_in_month_helper (year : Int) (month : Nat) : Nat :=
  match month with
  | 1 | 3 | 5 | 7 | 8 | 10 | 12 => 31
  | 4 | 6 | 9 | 11 => 30
  | 2 => if is_leap_year year then 29 else 28
  | _ => 30

/-- One month of `op_expand_monthly` (functions.rs:4083-4122): clamp the
requested day to the month's length (`(day_of_month as u32).min(..)`), build
the civil date with `NaiveDate::from_ymd_opt` (skipping the month on
failure), then process the date exactly as the daily expander does. -/
def monthlyInstance (tz : Tz) (dayOfMonth h0 h1 startMs endMs : Int)
    (y : Int) (m : Nat) : List (Int × Int) :=
  let dim := days_in_month_helper y m
  let actualDay := min (asU32 dayOfMonth) dim
  match tz.fromYmd y m actualDay with
  | none => []
  | some d => dateInstance tz h0 h1 startMs endMs d

/-- The month increment of `op_expand_monthly` (functions.rs:4124-4130):
plain arithmetic, never fallible. -/
def nextMonth (y : Int) (m : Nat) : Int × Nat :=
  if m = 12 then (y + 1, 1) else (y, m + 1)

/-- The month loop of `op_expand_monthly` (functions.rs:4082-4131),
`while (current_year, current_month) <= (end_year, end_month)`; chrono
guarantees the month components lie in `1..=12`, under which the iteration
count is `(end_year*12+end_month) - (start_year*12+start_month) + 1`.  No
step of the loop is fallible. -/
def monthlyLoop (tz : Tz) (dayOfMonth h0 h1 startMs endMs : Int) :
    Nat → Int → Nat → List (Int × Int)
  | 0, _, _ => []
  | fuel + 1, y, m =>
    monthlyInstance tz dayOfMonth h0 h1 startMs endMs y m ++
      monthlyLoop tz dayOfMonth h0 h1 startMs endMs fuel
        (nextMonth y m).1 (nextMonth y m).2

/-- Embeds `op_expand_monthly` (functions.rs:4035): validate
`day_of_month ∈ 1..=31` (functions.rs:4055-4057) and the window timestamps
(functions.rs:4063-4068), then run the infallible month loop. -/
def op_expand_monthly (tz : Tz) (dayOfMonth h0 h1 startMs endMs : Int) :
    Except String (List (Int × Int)) :=
  if dayOfMonth < 1 ∨ dayOfMonth > 31 then
    .error "day_of_month must be 1-31"
  else
    match tz.toLocalYM (startMs.tdiv 1000) with
    | none => .error "Invalid start timestamp"
    | some (y0, m0) =>
      match tz.toLocalYM (endMs.tdiv 1000) with
      | none => .error "Invalid end timestamp"
      | some (yE, mE) =>
        .ok (monthlyLoop tz dayOfMonth h0 h1 startMs endMs
          ((yE * 12 + (mE : Int)) - (y0 * 12 + (m0 : Int)) + 1).toNat y0 m0)

/-- One year of `op_expand_yearly` (functions.rs:4188-4232): clamp the day,
skip Feb 29 in non-leap years entirely (functions.rs:4193-4195), build the
civil date with `NaiveDate::from_ymd_opt` (skipping on failure), then
process the date exactly as the daily expander does. -/
def yearlyInstance (tz : Tz) (month day h0 h1 startMs endMs : Int)
    (y : Int) : List (Int × Int) :=
  let dim := days_in_month_helper y (asU32 month)
  let actualDay := min (asU32 day) dim
  if month = 2 ∧ day = 29 ∧ is_leap_year y = false then []
  else
    match tz.fromYmd y (asU32 month) actualDay with
    | none => []
    | some d => dateInstance tz h0 h1 startMs endMs d

/-- The year loop of `op_expand_yearly` (functions.rs:4187-4233),
`for current_year in start_dt.year()..=end_dt.year()`: a plain range
iteration, no step of which is fallible. -/
def yearlyLoop (tz : Tz) (month day h0 h1 startMs endMs : Int) :
    Nat → Int → List (Int × Int)
  | 0, _ => []
  | fuel + 1, y =>
    yearlyInstance tz month day h0 h1 startMs endMs y ++
      yearlyLoop tz month day h0 h1 startMs endMs fuel (y + 1)

/-- Embeds `op_expand_yearly` (functions.rs:4137): validate
`month ∈ 1..=12` and `day ∈ 1..=31` (functions.rs:4160-4165) and the window
timestamps (functions.rs:4171-4176), then run the infallible year loop. -/
def op_expand_yearly (tz : Tz) (month day h0 h1 startMs endMs : Int) :
    Except String (List (Int × Int)) :=
  if month < 1 ∨ month > 12 then .error "month must be 1-12"
  else if day < 1 ∨ day > 31 then .error "day must be 1-31"
  else
    match tz.toLocalY (startMs.tdiv 1000) with
    | none => .error "Invalid start timestamp"
    | some y0 =>
      match tz.toLocalY (endMs.tdiv 1000) with
      | none => .error "Invalid end timestamp"
      | some yE =>
        .ok (yearlyLoop tz month day h0 h1 startMs endMs
          (yE - y0 + 1).toNat y0)

/-- Rust `as usize` wrapping cast from `i64` on a 64-bit target: a negative
index becomes a huge one, so the subsequent `Vec::get` yields `None`. -/
def asUsize (n : Int) : Nat := (n.emod (2 ^ 64)).toNat

/-- The dates of the sample month (January 2024, functions.rs:3464-3466;
day indices 19723..=19753) matching a given weekday, as collected by the
scan loop of `op_expand_monthly_setpos` (functions.rs:3489-3506) when no
step of that loop fails. -/
def setposDatesPure (wday : Int) : Nat → Int → List Int
  | 0, _ => []
  | fuel + 1, d =>
    if weekdayOf d = wday then d :: setposDatesPure wday fuel (d + 1)
    else setposDatesPure wday fuel (d + 1)

/-- The date-collection loop of `op_expand_monthly_setpos`
(functions.rs:3489-3506): each iteration ends with
`current_date.succ_opt().ok_or_else(..)?`, whose calendar overflow raises
"Failed to increment date". -/
def setposDatesLoop (tz : Tz) (wday : Int) :
    Nat → Int → Except String (List Int)
  | 0, _ => .ok []
  | fuel + 1, d =>
    if tz.succFails d then .error "Failed to increment date"
    else
      match setposDatesLoop tz wday fuel (d + 1) with
      | .error e => .error e
      | .ok rest => .ok (if weekdayOf d = wday then d :: rest else rest)

/-- The setpos selection of `op_expand_monthly_setpos`
(functions.rs:3510-3517): a positive setpos indexes from the front, a
negative one from the back via `(len as i64 + setpos) as usize`; an
out-of-range index yields `None` (the setpos is skipped). -/
def setposSelect (dates : List Int) (sp : Int) : Option Int :=
  if sp > 0 then dates.get? (sp - 1).toNat
  else dates.get? (asUsize ((dates.length : Int) + sp))

/-- The setpos loop of `op_expand_monthly_setpos` (functions.rs:3509-3539):
a zero setpos bails; a selected date has its boundaries built with
`and_hms_opt(h0 as u32, start_min as u32, 0)` (hour/minute validity raises)
and resolved with `from_local_datetime(..).single().ok_or_else(..)`, so a
DST gap or fold at either boundary raises. -/
def setposProcess (tz : Tz) (h0 h1 startMin endMin : Int)
    (dates : List Int) : List Int → Except String (List (Int × Int))
  | [] => .ok []
  | sp :: rest =>
    if sp = 0 then .error "Setpos cannot be 0"
    else
      match setposSelect dates sp with
      | none => setposProcess tz h0 h1 startMin endMin dates rest
      | some d =>
        if asU32 h0 ≥ 24 ∨ asU32 startMin ≥ 60 then .error "Invalid start time"
        else
          match (tz.resolve d (asU32 h0) (asU32 startMin)).toSingle with
          | none => .error "Ambiguous start time in timezone"
          | some ts =>
            if asU32 h1 ≥ 24 ∨ asU32 endMin ≥ 60 then .error "Invalid end time"
            else
              match (tz.resolve d (asU32 h1) (asU32 endMin)).toSingle with
              | none => .error "Ambiguous end time in timezone"
              | some te =>
                match setposProcess tz h0 h1 startMin endMin dates rest with
                | .error e => .error e
                | .ok more => .ok ((ts, te) :: more)

/-- The weekday loop of `op_expand_monthly_setpos` (functions.rs:3480-3540):
each requested weekday is validated (`1..=7`), the sample month
(January 2024, first day index 19723, 31 days) is scanned for matching
dates, and the setpos loop runs over them.  The pre-loop
`from_ymd_opt`/`pred_opt` constructions of the fixed sample month
(functions.rs:3470-3478) cannot fail and are not modelled. -/
def setposWdayLoop (tz : Tz) (h0 h1 : Int) (bySetpos : List Int)
    (startMin endMin : Int) : List Int → Except String (List (Int × Int))
  | [] => .ok []
  | w :: rest =>
    if w < 1 ∨ w > 7 then .error "Weekday must be 1-7"
    else
      match setposDatesLoop tz w 31 19723 with
      | .error e => .error e
      | .ok dates =>
        match setposProcess tz h0 h1 startMin endMin dates bySetpos with
        | .error e => .error e
        | .ok ivs =>
          match setposWdayLoop tz h0 h1 bySetpos startMin endMin rest with
          | .error e => .error e
          | .ok more => .ok (ivs ++ more)

/-- Embeds `op_expand_monthly_setpos` (functions.rs:3427): run the weekday
loop over the requested weekdays.  Argument and timezone-string validation
is handled before this point in the Rust code and is not modelled. -/
def op_expand_monthly_setpos (tz : Tz) (h0 h1 : Int)
    (byWday bySetpos : List Int) (startMin endMin : Int) :
    Except String (List (Int × Int)) :=
  setposWdayLoop tz h0 h1 bySetpos startMin endMin byWday

/-- Concrete calendar/timezone model with a DST gap, standing for
America/New_York around 2024-03-10 (day index 19792, a Sunday): local wall
times 02:00-02:59 that day do not exist (spring forward); all other local
times resolve uniquely at UTC offset +5h.  Timestamp conversion always
succeeds and `succ_opt` never overflows; the civil-calendar views are
equipped on 2024 only (2024-01-01 is day index 19723). -/
def tzGapModel : Tz where
  toLocalDay := fun t => some (Int.ediv t 86400)
  toLocalYM := fun t =>
    let d := Int.ediv t 86400
    if 19783 ≤ d ∧ d ≤ 19813 then some (2024, 3) else none
  toLocalY := fun t =>
    let d := Int.ediv t 86400
    if 19723 ≤ d ∧ d ≤ 20088 then some 2024 else none
  succFails := fun _ => false
  fromYmd := fun y m day =>
    if y = 2024 ∧ m = 3 ∧ 1 ≤ day ∧ day ≤ 31 then some (19782 + (day : Int))
    else none
  resolve := fun d h m =>
    if d = 19792 ∧ h = 2 then .missing
    else .single (d * 86400 + ((h : Int) * 3600 + (m : Int) * 60) + 18000)

/-- Models `SourcePos` (source_pos.rs:4): a file ID (as a character list)
with a half-open byte range. -/
structure SourcePos where
  file_id : List Char
  start_byte : Nat
  end_byte : Nat
deriving DecidableEq

/-- Models `source_pos::ParseError`. -/
inductive ParseError where
  | MissingColon (which : String)
  | InvalidByteOffset (which : String)
deriving DecidableEq

/-- Models `Iterator::position`: index of the first element satisfying the
predicate. -/
def position (p : Char → Bool) : List Char → Option Nat
  | [] => none
  | c :: rest => if p c then some 0 else (position p rest).map (· + 1)

/-- Models `u32::from_str`: an optional leading plus sign, then at least one
decimal digit, rejecting values outside `u32` (Rust reports overflow during
accumulation; the final-value test is equivalent since partial values never
exceed the final one). -/
def parseU32 (cs : List Char) : Option Nat :=
  let ds := match cs with
    | c :: rest => if c = '+' then rest else c :: rest
    | [] => []
  if ds.isEmpty then none
  else if ds.all (fun c => c.isDigit) then
    let v := ds.foldl (fun acc c => acc * 10 + (c.toNat - 48)) 0
    if v < 2 ^ 32 then some v else none
  else none

/-- Decimal digits of a natural number, least significant first, written
with explicit fuel so that terms reduce by kernel computation; agrees with
`Nat.digits 10` whenever the fuel suffices. -/
def toDigitsRev : Nat → Nat → List Nat
  | 0, _ => []
  | fuel + 1, n => if n = 0 then [] else n % 10 :: toDigitsRev fuel (n / 10)

/-- Decimal digits of a natural number, most significant first, as printed
by Rust `Display` for `u32`. -/
def natChars (n : Nat) : List Char :=
  if n = 0 then ['0'] else ((toDigitsRev n n).map Nat.digitChar).reverse

/-- Models `SourcePos::fmt` (source_pos.rs:46): `file:start:end`. -/
def SourcePos.display (p : SourcePos) : List Char :=
  p.file_id ++ ':' :: (natChars p.start_byte ++ ':' :: natChars p.end_byte)

/-- Models `SourcePos::from_str` (source_pos.rs:19): scan from the end for
the last colon (everything after it is the end offset), then for the
second-to-last colon (the start offset); everything before is the file ID. -/
def SourcePos.fromStr (s : List Char) : Except ParseError SourcePos :=
  let rev := s.reverse
  match position (fun c => c == ':') rev with
  | none => .error (.MissingColon "end")
  | some p1 =>
    let endStr := (rev.take p1).reverse
    let rest := rev.drop (p1 + 1)
    match position (fun c => c == ':') rest with
    | none => .error (.MissingColon "start")
    | some p2 =>
      let startStr := (rest.take p2).reverse
      let fileId := (rest.drop (p2 + 1)).reverse
      match parseU32 startStr with
      | none => .error (.InvalidByteOffset "start")
      | some sb =>
        match parseU32 endStr with
        | none => .error (.InvalidByteOffset "end")
        | some eb => .ok ⟨fileId, sb, eb⟩

/-- Models `Blob` with its out-of-band uncompressed length; data is a byte
list. -/
structure Blob where
  uncompressed_len : Nat
  data : List Nat

/-- The 4-byte Zstd magic checked by `decompress_if_needed`. -/
def zstdMagic : List Nat := [0x28, 0xb5, 0x2f, 0xfd]

/-- Embeds `decompress_if_needed` (state.rs:525).  The Zstd bulk
decompressor is an external collaborator passed as a function (`zstd data
capacity`); `shrink_to_fit` does not change the byte contents and is not
modelled. -/
def decompress_if_needed (zstd : List Nat → Nat → Except Unit (List Nat))
    (blob : Blob) : List Nat :=
  if blob.data.length < 4 ∨ blob.data.take 4 ≠ zstdMagic then blob.data
  else
    match zstd blob.data blob.uncompressed_len with
    | .ok decompressed => decompressed
    | .error _ => blob.data

/-- Models `GraphBlob` (blobs.rs:5). -/
structure GraphBlob where
  file_id : String
  blob : List Nat

/-- Models `NodePathBlob` (blobs.rs:10). -/
structure NodePathBlob where
  file_id : String
  start_node_local_id : Nat
  blob : List Nat

/-- Models `RootPathBlob` (blobs.rs:16). -/
structure RootPathBlob where
  file_id : String
  precondition_symbol_stack : String
  blob : List Nat

/-- Models `LoadState` (state.rs:53). -/
inductive LoadState (α : Type) where
  | Unloaded (x : α) : LoadState α
  | Loaded : LoadState α

/-- The stack-graph error constructors exercised at the `State::new` and
`Querier::definitions` boundary (error.rs:6). -/
inductive SGError where
  | DuplicateGraph (file_id : String)
  | UnknownFile (file_id : String)
  | MissingData (what : String)
  | Query (pos : SourcePos)
deriving DecidableEq

/-- The blob-store part of `State` (state.rs:38) as built by `State::new`.
The `graph`, `partials` and `db` fields are freshly created empty upstream
stack-graphs values and carry no information at construction time.  Hash
maps are modelled as association lists (first component = key); only
key-membership and per-key values matter to the verified behaviour. -/
structure State where
  graph_blobs : List (String × LoadState (List Nat))
  node_path_blobs : List ((String × Nat) × LoadState (List (List Nat)))
  root_paths_index : List (String × List Nat)
  root_path_blobs : List (LoadState (String × List Nat))

/-- The graph-blob indexing loop of `State::new` (state.rs:77-85): a second
row for the same file ID raises `DuplicateGraph`. -/
def indexGraphBlobs :
    List (Except SGError GraphBlob) → List (String × LoadState (List Nat)) →
    Except SGError (List (String × LoadState (List Nat)))
  | [], acc => .ok acc
  | row :: rest, acc =>
    match row with
    | .error e => .error e
    | .ok gb =>
      if acc.any (fun p => p.1 == gb.file_id) then
        .error (.DuplicateGraph gb.file_id)
      else
        indexGraphBlobs rest (acc ++ [(gb.file_id, .Unloaded gb.blob)])

/-- The `entry(..).or_insert_with(..)` push of one node-path blob
(state.rs:100-107); during construction every present entry is `Unloaded`
(the `Loaded` branch mirrors the Rust `unreachable!`). -/
def pushNodePath :
    List ((String × Nat) × LoadState (List (List Nat))) → String × Nat →
    List Nat → List ((String × Nat) × LoadState (List (List Nat)))
  | [], k, b => [(k, .Unloaded [b])]
  | (k', v) :: rest, k, b =>
    if k' = k then
      (k', match v with
           | .Unloaded l => LoadState.Unloaded (l ++ [b])
           | .Loaded => LoadState.Loaded) :: rest
    else
      (k', v) :: pushNodePath rest k b

/-- The node-path indexing loop of `State::new` (state.rs:92-108): a row
whose file ID has no graph blob raises `UnknownFile`. -/
def indexNodePathBlobs (graphs : List (String × LoadState (List Nat))) :
    List (Except SGError NodePathBlob) →
    List ((String × Nat) × LoadState (List (List Nat))) →
    Except SGError (List ((String × Nat) × LoadState (List (List Nat))))
  | [], acc => .ok acc
  | row :: rest, acc =>
    match row with
    | .error e => .error e
    | .ok npb =>
      if ¬ graphs.any (fun p => p.1 == npb.file_id) then
        .error (.UnknownFile npb.file_id)
      else
        indexNodePathBlobs graphs rest
          (pushNodePath acc (npb.file_id, npb.start_node_local_id) npb.blob)

/-- Appends one blob index under one symbol-stack pattern
(state.rs:129-132). -/
def pushIndexKey :
    List (String × List Nat) → String → Nat → List (String × List Nat)
  | [], pat, idx => [(pat, [idx])]
  | (p, idxs) :: rest, pat, idx =>
    if p = pat then (p, idxs ++ [idx]) :: rest
    else (p, idxs) :: pushIndexKey rest pat idx

/-- The root-path indexing loop of `State::new` (state.rs:116-134).  Note:
no check against the graph map is performed here.  The pattern expansion
`key_patterns_from_storage_key` is a pure string function passed in as
`patterns`. -/
def indexRootPathBlobs (patterns : String → List String) :
    List (Except SGError RootPathBlob) → List (LoadState (String × List Nat)) →
    List (String × List Nat) →
    Except SGError (List (LoadState (String × List Nat)) × List (String × List Nat))
  | [], blobs, idx => .ok (blobs, idx)
  | row :: rest, blobs, idx =>
    match row with
    | .error e => .error e
    | .ok rpb =>
      let i := blobs.length
      let blobs2 := blobs ++ [LoadState.Unloaded (rpb.file_id, rpb.blob)]
      let idx2 := (patterns rpb.precondition_symbol_stack).foldl
        (fun m pat => pushIndexKey m pat i) idx
      indexRootPathBlobs patterns rest blobs2 idx2

/-- Embeds `State::new` (state.rs:68): index graph blobs (duplicate check),
node-path blobs (unknown-file check), then root-path blobs (no file
check). -/
def StateNew (patterns : String → List String)
    (graphs : List (Except SGError GraphBlob))
    (nodePaths : List (Except SGError NodePathBlob))
    (rootPaths : List (Except SGError RootPathBlob)) : Except SGError State :=
  match indexGraphBlobs graphs [] with
  | .error e => .error e
  | .ok g =>
    match indexNodePathBlobs g nodePaths [] with
    | .error e => .error e
    | .ok np =>
      match indexRootPathBlobs patterns rootPaths [] [] with
      | .error e => .error e
      | .ok (rpb, rpi) => .ok ⟨g, np, rpi, rpb⟩

/-- Embeds the reference loop of `Querier::definitions` (query.rs:54-123).
`loadNodes` stands for `State::load_nodes` (the node handles of the
reference file whose byte range equals the reference), `resolve` for the
stitching, shadow filtering and output mapping of one reference (all inside
the upstream stack-graphs stitcher), and `ρ` for the resolution row type.
When a reference matches no node the loop returns `Err(Error::Query(..))`
immediately (query.rs:61-63).  The never-cancelled cancellation flag is
elided. -/
def definitions {ρ : Type} (loadNodes : SourcePos → Except SGError (List Nat))
    (resolve : SourcePos → List Nat → Except SGError (List ρ)) :
    List SourcePos → Except SGError (List ρ)
  | [] => .ok []
  | r :: rest =>
    match loadNodes r with
    | .error e => .error e
    | .ok nodes =>
      if nodes.isEmpty then .error (.Query r)
      else
        match resolve r nodes with
        | .error e => .error e
        | .ok rs =>
          match definitions loadNodes resolve rest with
          | .error e => .error e
          | .ok more => .ok (rs ++ more)

/-- The thirteen Allen predicate results reduce to thirteen decided linear
comparisons of the four interval bounds. -/
theorem allenResults_eval (s1 e1 s2 e2 : Int) :
    allenResults s1 e1 s2 e2 =
      [decide (e1 < s2), decide (e1 = s2),
       decide (s1 < s2 ∧ s2 < e1 ∧ e1 < e2),
       decide (s1 = s2 ∧ e1 < e2),
       decide (s2 < s1 ∧ e1 < e2),
       decide (s1 > s2 ∧ e1 = e2),
       decide (s1 = s2 ∧ e1 = e2),
       decide (e2 < s1), decide (e2 = s1),
       decide (s2 < s1 ∧ s1 < e2 ∧ e2 < e1),
       decide (s2 = s1 ∧ e2 < e1),
       decide (s1 < s2 ∧ e2 < e1),
       decide (s2 > s1 ∧ e2 = e1)] := by
  simp only [allenResults, op_allen_before, op_allen_meets, op_allen_overlaps,
    op_allen_starts, op_allen_during, op_allen_finishes, op_allen_equals,
    op_allen_after, op_allen_met_by, op_allen_overlapped_by, op_allen_started_by,
    op_allen_contains, op_allen_finished_by]
  rfl

/-- C1: for every pair of well-formed intervals `[s1,e1)` and `[s2,e2)`
(`s1 < e1`, `s2 < e2`), exactly one of the thirteen Allen predicates
`op_allen_before` .. `op_allen_finished_by` (inverses included) returns
`true`. -/
theorem allen_thirteen_exactly_one (s1 e1 s2 e2 : Int)
    (h1 : s1 < e1) (h2 : s2 < e2) :
    countTrue (allenResults s1 e1 s2 e2) = 1 := by
  rw [allenResults_eval]
  simp only [countTrue, decide_eq_true_eq]
  rcases lt_trichotomy e1 s2 with hA | hA | hA
  · rw [if_pos (show e1 < s2 by omega),
        if_neg (show ¬ (e1 = s2) by omega),
        if_neg (show ¬ (s1 < s2 ∧ s2 < e1 ∧ e1 < e2) by omega),
        if_neg (show ¬ (s1 = s2 ∧ e1 < e2) by omega),
        if_neg (show ¬ (s2 < s1 ∧ e1 < e2) by omega),
        if_neg (show ¬ (s1 > s2 ∧ e1 = e2) by omega),
        if_neg (show ¬ (s1 = s2 ∧ e1 = e2) by omega),
        if_neg (show ¬ (e2 < s1) by omega),
        if_neg (show ¬ (e2 = s1) by omega),
        if_neg (show ¬ (s2 < s1 ∧ s1 < e2 ∧ e2 < e1) by omega),
        if_neg (show ¬ (s2 = s1 ∧ e2 < e1) by omega),
        if_neg (show ¬ (s1 < s2 ∧ e2 < e1) by omega),
        if_neg (show ¬ (s2 > s1 ∧ e2 = e1) by omega)]
  · rw [if_neg (show ¬ (e1 < s2) by omega),
        if_pos (show e1 = s2 by omega),
        if_neg (show ¬ (s1 < s2 ∧ s2 < e1 ∧ e1 < e2) by omega),
        if_neg (show ¬ (s1 = s2 ∧ e1 < e2) by omega),
        if_neg (show ¬ (s2 < s1 ∧ e1 < e2) by omega),
        if_neg (show ¬ (s1 > s2 ∧ e1 = e2) by omega),
        if_neg (show ¬ (s1 = s2 ∧ e1 = e2) by omega),
        if_neg (show ¬ (e2 < s1) by omega),
        if_neg (show ¬ (e2 = s1) by omega),
        if_neg (show ¬ (s2 < s1 ∧ s1 < e2 ∧ e2 < e1) by omega),
        if_neg (show ¬ (s2 = s1 ∧ e2 < e1) by omega),
        if_neg (show ¬ (s1 < s2 ∧ e2 < e1) by omega),
        if_neg (show ¬ (s2 > s1 ∧ e2 = e1) by omega)]
  · rcases lt_trichotomy e2 s1 with hB | hB | hB
    · rw [if_neg (show ¬ (e1 < s2) by omega),
          if_neg (show ¬ (e1 = s2) by omega),
          if_neg (show ¬ (s1 < s2 ∧ s2 < e1 ∧ e1 < e2) by omega),
          if_neg (show ¬ (s1 = s2 ∧ e1 < e2) by omega),
          if_neg (show ¬ (s2 < s1 ∧ e1 < e2) by omega),
          if_neg (show ¬ (s1 > s2 ∧ e1 = e2) by omega),
          if_neg (show ¬ (s1 = s2 ∧ e1 = e2) by omega),
          if_pos (show e2 < s1 by omega),
          if_neg (show ¬ (e2 = s1) by omega),
          if_neg (show ¬ (s2 < s1 ∧ s1 < e2 ∧ e2 < e1) by omega),
          if_neg (show ¬ (s2 = s1 ∧ e2 < e1) by omega),
          if_neg (show ¬ (s1 < s2 ∧ e2 < e1) by omega),
          if_neg (show ¬ (s2 > s1 ∧ e2 = e1) by omega)]
    · rw [if_neg (show ¬ (e1 < s2) by omega),
          if_neg (show ¬ (e1 = s2) by omega),
          if_neg (show ¬ (s1 < s2 ∧ s2 < e1 ∧ e1 < e2) by omega),
          if_neg (show ¬ (s1 = s2 ∧ e1 < e2) by omega),
          if_neg (show ¬ (s2 < s1 ∧ e1 < e2) by omega),
          if_neg (show ¬ (s1 > s2 ∧ e1 = e2) by omega),
          if_neg (show ¬ (s1 = s2 ∧ e1 = e2) by omega),
          if_neg (show ¬ (e2 < s1) by omega),
          if_pos (show e2 = s1 by omega),
          if_neg (show ¬ (s2 < s1 ∧ s1 < e2 ∧ e2 < e1) by omega),
          if_neg (show ¬ (s2 = s1 ∧ e2 < e1) by omega),
          if_neg (show ¬ (s1 < s2 ∧ e2 < e1) by omega),
          if_neg (show ¬ (s2 > s1 ∧ e2 = e1) by omega)]
    · rcases lt_trichotomy s1 s2 with hC | hC | hC <;>
        rcases lt_trichotomy e1 e2 with hD | hD | hD
      · rw [if_neg (show ¬ (e1 < s2) by omega),
            if_neg (show ¬ (e1 = s2) by omega),
            if_pos (show s1 < s2 ∧ s2 < e1 ∧ e1 < e2 by omega),
            if_neg (show ¬ (s1 = s2 ∧ e1 < e2) by omega),
            if_neg (show ¬ (s2 < s1 ∧ e1 < e2) by omega),
            if_neg (show ¬ (s1 > s2 ∧ e1 = e2) by omega),
            if_neg (show ¬ (s1 = s2 ∧ e1 = e2) by omega),
            if_neg (show ¬ (e2 < s1) by omega),
            if_neg (show ¬ (e2 = s1) by omega),
            if_neg (show ¬ (s2 < s1 ∧ s1 < e2 ∧ e2 < e1) by omega),
            if_neg (show ¬ (s2 = s1 ∧ e2 < e1) by omega),
            if_neg (show ¬ (s1 < s2 ∧ e2 < e1) by omega),
            if_neg (show ¬ (s2 > s1 ∧ e2 = e1) by omega)]
      · rw [if_neg (show ¬ (e1 < s2) by omega),
            if_neg (show ¬ (e1 = s2) by omega),
            if_neg (show ¬ (s1 < s2 ∧ s2 < e1 ∧ e1 < e2) by omega),
            if_neg (show ¬ (s1 = s2 ∧ e1 < e2) by omega),
            if_neg (show ¬ (s2 < s1 ∧ e1 < e2) by omega),
            if_neg (show ¬ (s1 > s2 ∧ e1 = e2) by omega),
            if_neg (show ¬ (s1 = s2 ∧ e1 = e2) by omega),
            if_neg (show ¬ (e2 < s1) by omega),
            if_neg (show ¬ (e2 = s1) by omega),
            if_neg (show ¬ (s2 < s1 ∧ s1 < e2 ∧ e2 < e1) by omega),
            if_neg (show ¬ (s2 = s1 ∧ e2 < e1) by omega),
            if_neg (show ¬ (s1 < s2 ∧ e2 < e1) by omega),
            if_pos (show s2 > s1 ∧ e2 = e1 by omega)]
      · rw [if_neg (show ¬ (e1 < s2) by omega),
            if_neg (show ¬ (e1 = s2) by omega),
            if_neg (show ¬ (s1 < s2 ∧ s2 < e1 ∧ e1 < e2) by omega),
            if_neg (show ¬ (s1 = s2 ∧ e1 < e2) by omega),
            if_neg (show ¬ (s2 < s1 ∧ e1 < e2) by omega),
            if_neg (show ¬ (s1 > s2 ∧ e1 = e2) by omega),
            if_neg (show ¬ (s1 = s2 ∧ e1 = e2) by omega),
            if_neg (show ¬ (e2 < s1) by omega),
            if_neg (show ¬ (e2 = s1) by omega),
            if_neg (show ¬ (s2 < s1 ∧ s1 < e2 ∧ e2 < e1) by omega),
            if_neg (show ¬ (s2 = s1 ∧ e2 < e1) by omega),
            if_pos (show s1 < s2 ∧ e2 < e1 by omega),
            if_neg (show ¬ (s2 > s1 ∧ e2 = e1) by omega)]
      · rw [if_neg (show ¬ (e1 < s2) by omega),
            if_neg (show ¬ (e1 = s2) by omega),
            if_neg (show ¬ (s1 < s2 ∧ s2 < e1 ∧ e1 < e2) by omega),
            if_pos (show s1 = s2 ∧ e1 < e2 by omega),
            if_neg (show ¬ (s2 < s1 ∧ e1 < e2) by omega),
            if_neg (show ¬ (s1 > s2 ∧ e1 = e2) by omega),
            if_neg (show ¬ (s1 = s2 ∧ e1 = e2) by omega),
            if_neg (show ¬ (e2 < s1) by omega),
            if_neg (show ¬ (e2 = s1) by omega),
            if_neg (show ¬ (s2 < s1 ∧ s1 < e2 ∧ e2 < e1) by omega),
            if_neg (show ¬ (s2 = s1 ∧ e2 < e1) by omega),
            if_neg (show ¬ (s1 < s2 ∧ e2 < e1) by omega),
            if_neg (show ¬ (s2 > s1 ∧ e2 = e1) by omega)]
      · rw [if_neg (show ¬ (e1 < s2) by omega),
            if_neg (show ¬ (e1 = s2) by omega),
            if_neg (show ¬ (s1 < s2 ∧ s2 < e1 ∧ e1 < e2) by omega),
            if_neg (show ¬ (s1 = s2 ∧ e1 < e2) by omega),
            if_neg (show ¬ (s2 < s1 ∧ e1 < e2) by omega),
            if_neg (show ¬ (s1 > s2 ∧ e1 = e2) by omega),
            if_pos (show s1 = s2 ∧ e1 = e2 by omega),
            if_neg (show ¬ (e2 < s1) by omega),
            if_neg (show ¬ (e2 = s1) by omega),
            if_neg (show ¬ (s2 < s1 ∧ s1 < e2 ∧ e2 < e1) by omega),
            if_neg (show ¬ (s2 = s1 ∧ e2 < e1) by omega),
            if_neg (show ¬ (s1 < s2 ∧ e2 < e1) by omega),
            if_neg (show ¬ (s2 > s1 ∧ e2 = e1) by omega)]
      · rw [if_neg (show ¬ (e1 < s2) by omega),
            if_neg (show ¬ (e1 = s2) by omega),
            if_neg (show ¬ (s1 < s2 ∧ s2 < e1 ∧ e1 < e2) by omega),
            if_neg (show ¬ (s1 = s2 ∧ e1 < e2) by omega),
            if_neg (show ¬ (s2 < s1 ∧ e1 < e2) by omega),
            if_neg (show ¬ (s1 > s2 ∧ e1 = e2) by omega),
            if_neg (show ¬ (s1 = s2 ∧ e1 = e2) by omega),
            if_neg (show ¬ (e2 < s1) by omega),
            if_neg (show ¬ (e2 = s1) by omega),
            if_neg (show ¬ (s2 < s1 ∧ s1 < e2 ∧ e2 < e1) by omega),
            if_pos (show s2 = s1 ∧ e2 < e1 by omega),
            if_neg (show ¬ (s1 < s2 ∧ e2 < e1) by omega),
            if_neg (show ¬ (s2 > s1 ∧ e2 = e1) by omega)]
      · rw [if_neg (show ¬ (e1 < s2) by omega),
            if_neg (show ¬ (e1 = s2) by omega),
            if_neg (show ¬ (s1 < s2 ∧ s2 < e1 ∧ e1 < e2) by omega),
            if_neg (show ¬ (s1 = s2 ∧ e1 < e2) by omega),
            if_pos (show s2 < s1 ∧ e1 < e2 by omega),
            if_neg (show ¬ (s1 > s2 ∧ e1 = e2) by omega),
            if_neg (show ¬ (s1 = s2 ∧ e1 = e2) by omega),
            if_neg (show ¬ (e2 < s1) by omega),
            if_neg (show ¬ (e2 = s1) by omega),
            if_neg (show ¬ (s2 < s1 ∧ s1 < e2 ∧ e2 < e1) by omega),
            if_neg (show ¬ (s2 = s1 ∧ e2 < e1) by omega),
            if_neg (show ¬ (s1 < s2 ∧ e2 < e1) by omega),
            if_neg (show ¬ (s2 > s1 ∧ e2 = e1) by omega)]
      · rw [if_neg (show ¬ (e1 < s2) by omega),
            if_neg (show ¬ (e1 = s2) by omega),
            if_neg (show ¬ (s1 < s2 ∧ s2 < e1 ∧ e1 < e2) by omega),
            if_neg (show ¬ (s1 = s2 ∧ e1 < e2) by omega),
            if_neg (show ¬ (s2 < s1 ∧ e1 < e2) by omega),
            if_pos (show s1 > s2 ∧ e1 = e2 by omega),
            if_neg (show ¬ (s1 = s2 ∧ e1 = e2) by omega),
            if_neg (show ¬ (e2 < s1) by omega),
            if_neg (show ¬ (e2 = s1) by omega),
            if_neg (show ¬ (s2 < s1 ∧ s1 < e2 ∧ e2 < e1) by omega),
            if_neg (show ¬ (s2 = s1 ∧ e2 < e1) by omega),
            if_neg (show ¬ (s1 < s2 ∧ e2 < e1) by omega),
            if_neg (show ¬ (s2 > s1 ∧ e2 = e1) by omega)]
      · rw [if_neg (show ¬ (e1 < s2) by omega),
            if_neg (show ¬ (e1 = s2) by omega),
            if_neg (show ¬ (s1 < s2 ∧ s2 < e1 ∧ e1 < e2) by omega),
            if_neg (show ¬ (s1 = s2 ∧ e1 < e2) by omega),
            if_neg (show ¬ (s2 < s1 ∧ e1 < e2) by omega),
            if_neg (show ¬ (s1 > s2 ∧ e1 = e2) by omega),
            if_neg (show ¬ (s1 = s2 ∧ e1 = e2) by omega),
            if_neg (show ¬ (e2 < s1) by omega),
            if_neg (show ¬ (e2 = s1) by omega),
            if_pos (show s2 < s1 ∧ s1 < e2 ∧ e2 < e1 by omega),
            if_neg (show ¬ (s2 = s1 ∧ e2 < e1) by omega),
            if_neg (show ¬ (s1 < s2 ∧ e2 < e1) by omega),
            if_neg (show ¬ (s2 > s1 ∧ e2 = e1) by omega)]

/-- Witness for `allen_thirteen_exactly_one` at `a = [10,20)`, `b = [25,35)`. -/
theorem allen_thirteen_exactly_one_witness :
    countTrue (allenResults 10 20 25 35) = 1 :=
  allen_thirteen_exactly_one 10 20 25 35 (by decide) (by decide)

/-- Evaluation of `op_interval_union` on integer-pair encodings. -/
theorem interval_union_eval (s1 e1 s2 e2 : Int) :
    op_interval_union (encIv s1 e1) (encIv s2 e2) =
      if e1 > s2 ∧ s1 < e2 then
        .ok (.List [.List [.Int (min s1 s2), .Int (max e1 e2)]])
      else if s1 < s2 then
        .ok (.List [encIv s1 e1, encIv s2 e2])
      else
        .ok (.List [encIv s2 e2, encIv s1 e1]) := rfl

/-- C2 (amended): `op_interval_union` returns the single merged interval
exactly when the intervals strictly overlap (`e1 > s2` and `s1 < e2`); when
they merely touch (`e1 = s2` or `e2 = s1`) or are disjoint it returns both
intervals, the one with the smaller start first. -/
theorem interval_union_merges_iff_strict_overlap (s1 e1 s2 e2 : Int)
    (h1 : s1 < e1) (h2 : s2 < e2) :
    (e1 > s2 ∧ s1 < e2 →
      op_interval_union (encIv s1 e1) (encIv s2 e2) =
        .ok (.List [.List [.Int (min s1 s2), .Int (max e1 e2)]]))
    ∧ (¬ (e1 > s2 ∧ s1 < e2) →
      op_interval_union (encIv s1 e1) (encIv s2 e2) =
        .ok (if s1 < s2 then .List [encIv s1 e1, encIv s2 e2]
             else .List [encIv s2 e2, encIv s1 e1])) := by
  constructor
  · intro h
    rw [interval_union_eval, if_pos h]
  · intro h
    rw [interval_union_eval, if_neg h]
    split <;> rfl

/-- Witness for `interval_union_merges_iff_strict_overlap` on the
overlapping pair `[10,20)`, `[15,25)`. -/
theorem interval_union_merges_iff_strict_overlap_witness :
    op_interval_union (encIv 10 20) (encIv 15 25) =
      .ok (.List [.List [.Int (min 10 15), .Int (max 20 25)]]) :=
  (interval_union_merges_iff_strict_overlap 10 20 15 25 (by decide)
    (by decide)).1 (by decide)

/-- Counterexample to C2 as stated: the touching intervals `[10,20)` and
`[20,30)` are not merged into `[[10,30)]`; both are returned. -/
theorem interval_union_touching_counterexample :
    op_interval_union (encIv 10 20) (encIv 20 30) =
      .ok (.List [encIv 10 20, encIv 20 30])
    ∧ op_interval_union (encIv 10 20) (encIv 20 30) ≠
      .ok (.List [.List [.Int 10, .Int 30]]) := by
  refine ⟨rfl, ?_⟩
  intro h
  rw [show op_interval_union (encIv 10 20) (encIv 20 30) =
      .ok (.List [encIv 10 20, encIv 20 30]) from rfl] at h
  simp [encIv] at h

/-- Evaluation of `op_interval` on integer arguments. -/
theorem interval_eval (s e : Int) :
    op_interval (.Int s) (.Int e) =
      if s ≥ e then .error "interval expects start lt end"
      else .ok (.List [.Int s, .Int e]) := rfl

/-- Evaluation of `op_interval_overlap` on integer-pair encodings. -/
theorem interval_overlap_eval (s1 e1 s2 e2 : Int) :
    op_interval_overlap (encIv s1 e1) (encIv s2 e2) =
      if max s1 s2 < min e1 e2 then
        .ok (.List [.Int (max s1 s2), .Int (min e1 e2)])
      else .ok .Null := rfl

/-- Evaluation of `op_interval_minus` on integer-pair encodings. -/
theorem interval_minus_eval (s1 e1 s2 e2 : Int) :
    op_interval_minus (encIv s1 e1) (encIv s2 e2) =
      if e1 ≤ s2 ∨ e2 ≤ s1 then .ok (.List [encIv s1 e1])
      else if s2 ≤ s1 ∧ e2 ≥ e1 then .ok (.List [])
      else if s2 ≤ s1 ∧ e2 < e1 then .ok (.List [encIv e2 e1])
      else if s2 > s1 ∧ e2 ≥ e1 then .ok (.List [encIv s1 s2])
      else .ok (.List [encIv s1 s2, encIv e2 e1]) := rfl

/-- C6 (amended): among the individual-interval operators only
`op_interval` rejects an inverted interval `s ≥ e`; every other listed
operator (length, intersects, overlap, union, minus, adjacent, shift,
contains, contains-interval, and the thirteen Allen predicates) performs no
well-formedness check and succeeds on arbitrary integer-pair intervals. -/
theorem interval_boundary_validation :
    (∀ s e : Int, s ≥ e → isOk (op_interval (.Int s) (.Int e)) = false)
    ∧ (∀ s e : Int, op_interval_len (encIv s e) = .ok (.Int (wrap64 (e - s))))
    ∧ (∀ s1 e1 s2 e2 : Int,
        isOk (op_interval_intersects (encIv s1 e1) (encIv s2 e2)) = true)
    ∧ (∀ s1 e1 s2 e2 : Int,
        isOk (op_interval_overlap (encIv s1 e1) (encIv s2 e2)) = true)
    ∧ (∀ s1 e1 s2 e2 : Int,
        isOk (op_interval_union (encIv s1 e1) (encIv s2 e2)) = true)
    ∧ (∀ s1 e1 s2 e2 : Int,
        isOk (op_interval_minus (encIv s1 e1) (encIv s2 e2)) = true)
    ∧ (∀ s1 e1 s2 e2 : Int,
        isOk (op_interval_adjacent (encIv s1 e1) (encIv s2 e2)) = true)
    ∧ (∀ s e d : Int, isOk (op_interval_shift (encIv s e) (.Int d)) = true)
    ∧ (∀ s e t : Int, isOk (op_interval_contains (encIv s e) (.Int t)) = true)
    ∧ (∀ s1 e1 s2 e2 : Int,
        isOk (op_interval_contains_interval (encIv s1 e1) (encIv s2 e2)) = true)
    ∧ (∀ s1 e1 s2 e2 : Int,
        isOk (op_allen_before (encIv s1 e1) (encIv s2 e2)) = true
        ∧ isOk (op_allen_meets (encIv s1 e1) (encIv s2 e2)) = true
        ∧ isOk (op_allen_overlaps (encIv s1 e1) (encIv s2 e2)) = true
        ∧ isOk (op_allen_starts (encIv s1 e1) (encIv s2 e2)) = true
        ∧ isOk (op_allen_during (encIv s1 e1) (encIv s2 e2)) = true
        ∧ isOk (op_allen_finishes (encIv s1 e1) (encIv s2 e2)) = true
        ∧ isOk (op_allen_equals (encIv s1 e1) (encIv s2 e2)) = true
        ∧ isOk (op_allen_after (encIv s1 e1) (encIv s2 e2)) = true
        ∧ isOk (op_allen_met_by (encIv s1 e1) (encIv s2 e2)) = true
        ∧ isOk (op_allen_overlapped_by (encIv s1 e1) (encIv s2 e2)) = true
        ∧ isOk (op_allen_started_by (encIv s1 e1) (encIv s2 e2)) = true
        ∧ isOk (op_allen_contains (encIv s1 e1) (encIv s2 e2)) = true
        ∧ isOk (op_allen_finished_by (encIv s1 e1) (encIv s2 e2)) = true) := by
  refine ⟨?_, ?_, ?_, ?_, ?_, ?_, ?_, ?_, ?_, ?_, ?_⟩
  · intro s e h
    rw [interval_eval, if_pos h]
    rfl
  · intro s e
    rfl
  · intro s1 e1 s2 e2
    rfl
  · intro s1 e1 s2 e2
    rw [interval_overlap_eval]
    split_ifs <;> rfl
  · intro s1 e1 s2 e2
    rw [interval_union_eval]
    split_ifs <;> rfl
  · intro s1 e1 s2 e2
    rw [interval_minus_eval]
    split_ifs <;> rfl
  · intro s1 e1 s2 e2
    rfl
  · intro s e d
    rfl
  · intro s e t
    rfl
  · intro s1 e1 s2 e2
    rfl
  · intro s1 e1 s2 e2
    exact ⟨rfl, rfl, rfl, rfl, rfl, rfl, rfl, rfl, rfl, rfl, rfl, rfl, rfl⟩

/-- Witness for `interval_boundary_validation`: `op_interval` rejects the
inverted interval `[5,3)`. -/
theorem interval_boundary_validation_witness :
    isOk (op_interval (.Int 5) (.Int 3)) = false :=
  interval_boundary_validation.1 5 3 (by decide)

/-- Counterexample to C6 as stated: `op_interval_len` accepts the inverted
interval `[5,3)` and returns `-2` instead of an error. -/
theorem interval_boundary_validation_counterexample :
    op_interval_len (encIv 5 3) = .ok (.Int (-2))
    ∧ isOk (op_interval_len (encIv 5 3)) = true := ⟨rfl, rfl⟩

/-- Evaluation of `op_bucket_start` on integer arguments. -/
theorem bucket_start_eval (k period epoch0 : Int) :
    op_bucket_start (.Int k) (.Int period) (.Int epoch0) =
      if period ≤ 0 then .error "Period must be positive"
      else .ok (.Int (wrap64 (epoch0 + wrap64 (k * period)))) := rfl

/-- Evaluation of `op_bucket_of` on integer arguments. -/
theorem bucket_of_eval (t period epoch0 : Int) :
    op_bucket_of (.Int t) (.Int period) (.Int epoch0) =
      if period ≤ 0 then .error "Period must be positive"
      else .ok (.Int (Int.ediv (wrap64 (t - epoch0)) period)) := rfl

/-- Wrapping is the identity on values already in the i64 range. -/
theorem wrap64_eq_self {n : Int} (h : inI64 n) : wrap64 n = n := by
  obtain ⟨ha, hb⟩ := h
  unfold wrap64
  rw [Int.emod_eq_of_lt (by omega) (by omega)]
  omega

/-- C7 (amended): for every bucket index `k`, positive `period` and
`epoch0` such that neither `k * period` nor `epoch0 + k * period` overflows
`i64`, `op_bucket_of` of `op_bucket_start k` recovers `k`. -/
theorem bucket_round_trip (k period epoch0 : Int) (hp : 0 < period)
    (hkp : inI64 (k * period)) (hsum : inI64 (epoch0 + k * period)) :
    op_bucket_start (.Int k) (.Int period) (.Int epoch0) =
      .ok (.Int (epoch0 + k * period))
    ∧ op_bucket_of (.Int (epoch0 + k * period)) (.Int period) (.Int epoch0) =
      .ok (.Int k) := by
  constructor
  · rw [bucket_start_eval, if_neg (by omega), wrap64_eq_self hkp,
      wrap64_eq_self hsum]
  · rw [bucket_of_eval, if_neg (by omega)]
    have h3 : epoch0 + k * period - epoch0 = k * period := by ring
    rw [h3, wrap64_eq_self hkp]
    have h4 : Int.ediv (k * period) period = k :=
      Int.mul_ediv_cancel k (ne_of_gt hp)
    rw [h4]

/-- Witness for `bucket_round_trip` at `k = 1`, `period = 60`,
`epoch0 = 100` (the S7 example: `bucket_start 1 = 160`,
`bucket_of 160 = 1`). -/
theorem bucket_round_trip_witness :
    op_bucket_start (.Int 1) (.Int 60) (.Int 100) = .ok (.Int (100 + 1 * 60))
    ∧ op_bucket_of (.Int (100 + 1 * 60)) (.Int 60) (.Int 100) =
      .ok (.Int 1) :=
  bucket_round_trip 1 60 100 (by decide) (by decide) (by decide)

/-- Counterexample to C7 as stated: with `k = 2^62`, `period = 2`,
`epoch0 = 0` the multiplication wraps in `i64`, `bucket_start` returns
`-2^63`, and the round trip yields `-2^62 ≠ 2^62`. -/
theorem bucket_round_trip_counterexample :
    op_bucket_start (.Int (2 ^ 62)) (.Int 2) (.Int 0) =
      .ok (.Int (-(2 ^ 63)))
    ∧ op_bucket_of (.Int (-(2 ^ 63))) (.Int 2) (.Int 0) =
      .ok (.Int (-(2 ^ 62)))
    ∧ ((-(2 ^ 62) : Int) ≠ 2 ^ 62) := ⟨rfl, rfl, by decide⟩


/-- Case analysis on an `Option` as equations, leaving the goal intact. -/
theorem optEq {α : Type} (o : Option α) : o = none ∨ ∃ x, o = some x := by
  cases o with
  | none => exact Or.inl rfl
  | some x => exact Or.inr ⟨x, rfl⟩

/-- Case analysis on an `Except` as equations, leaving the goal intact. -/
theorem exceptEq {ε α : Type} (x : Except ε α) :
    (∃ e, x = .error e) ∨ ∃ a, x = .ok a := by
  cases x with
  | error e => exact Or.inl ⟨e, rfl⟩
  | ok a => exact Or.inr ⟨a, rfl⟩

/-- Evaluation of one day of the daily expander when the local start time is
valid, the end boundary is the next local midnight and the day's `succ_opt`
does not overflow. -/
theorem dailyDayIvs_eval (tz : Tz) (h0 h1 d : Int)
    (hv : ¬ (asU32 (h0.tdiv 60) ≥ 24 ∨ asU32 (h0.tmod 60) ≥ 60))
    (h1440 : h1 ≥ 1440) (hsf : tz.succFails d = false) :
    dailyDayIvs tz h0 h1 d =
      match resolveEL (tz.resolve d (asU32 (h0.tdiv 60))
              (asU32 (h0.tmod 60))),
            resolveEL (tz.resolve (d + 1) 0 0) with
      | some ts, some te => some (wrap64 (ts * 1000), wrap64 (te * 1000))
      | _, _ => none := by
  simp only [dailyDayIvs, hsf, Bool.false_eq_true, if_false]
  rw [if_neg hv, if_pos h1440]

/-- The daily day loop succeeds whenever no day of the iterated range
overflows `succ_opt`, for every DST-resolution behaviour. -/
theorem dailyLoop_ok (tz : Tz) (h0 h1 startMs endMs : Int) :
    ∀ (fuel : Nat) (d : Int),
      (∀ i : Int, d ≤ i → i < d + (fuel : Int) → tz.succFails i = false) →
      ∃ l, dailyLoop tz h0 h1 startMs endMs fuel d = .ok l := by
  intro fuel
  induction fuel with
  | zero => intro d hsf; exact ⟨[], rfl⟩
  | succ n ih =>
    intro d hsf
    have hd : tz.succFails d = false := hsf d le_rfl (by omega)
    obtain ⟨l, hl⟩ := ih (d + 1) (fun i hi1 hi2 => hsf i (by omega) (by omega))
    refine ⟨dateInstance tz h0 h1 startMs endMs d ++ l, ?_⟩
    simp [dailyLoop, hd, hl]

/-- The weekly day loop cannot succeed when some day in its range has a
requested weekday whose start or end boundary is not uniquely resolvable:
every earlier iteration either raises or moves on, and the bad day raises. -/
theorem weeklyLoop_err (tz : Tz) (byWday : List Int) (startMin endMin d : Int)
    (hwd : byWday.contains (weekdayOf d) = true)
    (hbad : (tz.resolve d (asU32 (startMin.tdiv 60))
        (asU32 (startMin.tmod 60))).toSingle = none
      ∨ (tz.resolve d (asU32 (endMin.tdiv 60))
        (asU32 (endMin.tmod 60))).toSingle = none) :
    ∀ (fuel : Nat) (d0 : Int), d0 ≤ d → d < d0 + (fuel : Int) →
      isOk (weeklyLoop tz byWday startMin endMin fuel d0) = false := by
  intro fuel
  induction fuel with
  | zero => intro d0 hle hlt; exfalso; omega
  | succ n ih =>
    intro d0 hle hlt
    simp only [weeklyLoop]
    rcases eq_or_lt_of_le hle with heq | hlt2
    · subst heq
      rw [if_pos hwd]
      by_cases hv1 : asU32 (startMin.tdiv 60) ≥ 24 ∨ asU32 (startMin.tmod 60) ≥ 60
      · rw [if_pos hv1]; rfl
      · rw [if_neg hv1]
        rcases optEq ((tz.resolve d0 (asU32 (startMin.tdiv 60))
            (asU32 (startMin.tmod 60))).toSingle) with hs | ⟨ts, hs⟩
        · simp [hs, isOk]
        · rcases hbad with hb | hb
          · rw [hs] at hb; exact Option.noConfusion hb
          · by_cases hv2 : asU32 (endMin.tdiv 60) ≥ 24 ∨ asU32 (endMin.tmod 60) ≥ 60
            · simp [hs, hv2, isOk]
            · simp [hs, hv2, hb, isOk]
    · by_cases hw : byWday.contains (weekdayOf d0) = true
      · rw [if_pos hw]
        by_cases hv1 : asU32 (startMin.tdiv 60) ≥ 24 ∨ asU32 (startMin.tmod 60) ≥ 60
        · rw [if_pos hv1]; rfl
        · rw [if_neg hv1]
          rcases optEq ((tz.resolve d0 (asU32 (startMin.tdiv 60))
              (asU32 (startMin.tmod 60))).toSingle) with hs | ⟨ts, hs⟩
          · simp [hs, isOk]
          · by_cases hv2 : asU32 (endMin.tdiv 60) ≥ 24 ∨ asU32 (endMin.tmod 60) ≥ 60
            · simp [hs, hv2, isOk]
            · rcases optEq ((tz.resolve d0 (asU32 (endMin.tdiv 60))
                  (asU32 (endMin.tmod 60))).toSingle) with he | ⟨te, he⟩
              · simp [hs, hv2, he, isOk]
              · by_cases hsf : tz.succFails d0 = true
                · simp [hs, hv2, he, hsf, isOk]
                · have hih := ih (d0 + 1) (by omega) (by omega)
                  rcases exceptEq (weeklyLoop tz byWday startMin endMin n
                      (d0 + 1)) with ⟨e, hE⟩ | ⟨rest, hE⟩
                  · simp [hs, hv2, he, hsf, hE, isOk]
                  · rw [hE] at hih; simp [isOk] at hih
      · rw [if_neg hw]
        by_cases hsf : tz.succFails d0 = true
        · rw [if_pos hsf]; rfl
        · rw [if_neg hsf]
          exact ih (d0 + 1) (by omega) (by omega)

/-- A successful run of the setpos date-collection loop returns exactly the
matching dates of the scanned range. -/
theorem setposDatesLoop_okEq (tz : Tz) (w : Int) :
    ∀ (fuel : Nat) (d : Int) (l : List Int),
      setposDatesLoop tz w fuel d = .ok l → l = setposDatesPure w fuel d := by
  intro fuel
  induction fuel with
  | zero =>
    intro d l h
    simp only [setposDatesLoop] at h
    injection h with h
    simp only [setposDatesPure]
    exact h.symm
  | succ n ih =>
    intro d l h
    simp only [setposDatesLoop] at h
    by_cases hsf : tz.succFails d = true
    · rw [if_pos hsf] at h; exact Except.noConfusion h
    · rw [if_neg hsf] at h
      rcases exceptEq (setposDatesLoop tz w n (d + 1)) with ⟨e, hE⟩ | ⟨rest, hE⟩
      · simp [hE] at h
      · simp only [hE] at h
        injection h with h
        have hr := ih (d + 1) rest hE
        subst hr
        simp only [setposDatesPure]
        exact h.symm

/-- The setpos loop cannot succeed when some requested setpos selects a date
whose start or end boundary is not uniquely resolvable. -/
theorem setposProcess_err (tz : Tz) (h0 h1 startMin endMin : Int)
    (dates : List Int) (sp d : Int)
    (hsel : setposSelect dates sp = some d)
    (hbad : (tz.resolve d (asU32 h0) (asU32 startMin)).toSingle = none
      ∨ (tz.resolve d (asU32 h1) (asU32 endMin)).toSingle = none) :
    ∀ sps : List Int, sp ∈ sps →
      isOk (setposProcess tz h0 h1 startMin endMin dates sps) = false := by
  intro sps
  induction sps with
  | nil => intro h; simp at h
  | cons sp1 rest ih =>
    intro hmem
    simp only [setposProcess]
    by_cases h01 : sp1 = 0
    · rw [if_pos h01]; rfl
    · rw [if_neg h01]
      rcases List.mem_cons.mp hmem with heq | hmem2
      · subst heq
        simp only [hsel]
        by_cases hv1 : asU32 h0 ≥ 24 ∨ asU32 startMin ≥ 60
        · simp [hv1, isOk]
        · rcases optEq ((tz.resolve d (asU32 h0) (asU32 startMin)).toSingle)
              with hs | ⟨ts, hs⟩
          · simp [hv1, hs, isOk]
          · rcases hbad with hb | hb
            · rw [hs] at hb; exact Option.noConfusion hb
            · by_cases hv2 : asU32 h1 ≥ 24 ∨ asU32 endMin ≥ 60
              · simp [hv1, hs, hv2, isOk]
              · simp [hv1, hs, hv2, hb, isOk]
      · rcases optEq (setposSelect dates sp1) with hs1 | ⟨d1, hs1⟩
        · simp only [hs1]
          exact ih hmem2
        · simp only [hs1]
          by_cases hv1 : asU32 h0 ≥ 24 ∨ asU32 startMin ≥ 60
          · simp [hv1, isOk]
          · rcases optEq ((tz.resolve d1 (asU32 h0) (asU32 startMin)).toSingle)
                with hs | ⟨ts, hs⟩
            · simp [hv1, hs, isOk]
            · by_cases hv2 : asU32 h1 ≥ 24 ∨ asU32 endMin ≥ 60
              · simp [hv1, hs, hv2, isOk]
              · rcases optEq ((tz.resolve d1 (asU32 h1)
                    (asU32 endMin)).toSingle) with he | ⟨te, he⟩
                · simp [hv1, hs, hv2, he, isOk]
                · have hih := ih hmem2
                  rcases exceptEq (setposProcess tz h0 h1 startMin endMin
                      dates rest) with ⟨e, hE⟩ | ⟨more, hE⟩
                  · simp [hv1, hs, hv2, he, hE, isOk]
                  · rw [hE] at hih; simp [isOk] at hih

/-- The setpos weekday loop cannot succeed when some requested weekday and
setpos select a sample-month date whose boundary is not uniquely
resolvable. -/
theorem setposWdayLoop_err (tz : Tz) (h0 h1 : Int) (bySetpos : List Int)
    (startMin endMin : Int) (w sp d : Int)
    (hspmem : sp ∈ bySetpos)
    (hsel : setposSelect (setposDatesPure w 31 19723) sp = some d)
    (hbad : (tz.resolve d (asU32 h0) (asU32 startMin)).toSingle = none
      ∨ (tz.resolve d (asU32 h1) (asU32 endMin)).toSingle = none) :
    ∀ ws : List Int, w ∈ ws →
      isOk (setposWdayLoop tz h0 h1 bySetpos startMin endMin ws) = false := by
  intro ws
  induction ws with
  | nil => intro h; simp at h
  | cons w1 rest ih =>
    intro hmem
    simp only [setposWdayLoop]
    by_cases hv : w1 < 1 ∨ w1 > 7
    · rw [if_pos hv]; rfl
    · rw [if_neg hv]
      rcases exceptEq (setposDatesLoop tz w1 31 19723) with ⟨e, hcol⟩ | ⟨dates, hcol⟩
      · simp [hcol, isOk]
      · simp only [hcol]
        rcases List.mem_cons.mp hmem with heq | hmem2
        · subst heq
          have hdates : dates = setposDatesPure w 31 19723 :=
            setposDatesLoop_okEq tz w 31 19723 dates hcol
          subst hdates
          have hproc := setposProcess_err tz h0 h1 startMin endMin
            (setposDatesPure w 31 19723) sp d hsel hbad bySetpos hspmem
          rcases exceptEq (setposProcess tz h0 h1 startMin endMin
              (setposDatesPure w 31 19723) bySetpos) with ⟨e, hE⟩ | ⟨ivs, hE⟩
          · simp [hE, isOk]
          · rw [hE] at hproc; simp [isOk] at hproc
        · rcases exceptEq (setposProcess tz h0 h1 startMin endMin dates
              bySetpos) with ⟨e, hE⟩ | ⟨ivs, hE⟩
          · simp [hE, isOk]
          · simp only [hE]
            have hih := ih hmem2
            rcases exceptEq (setposWdayLoop tz h0 h1 bySetpos startMin endMin
                rest) with ⟨e2, hR⟩ | ⟨more, hR⟩
            · simp [hR, isOk]
            · rw [hR] at hih; simp [isOk] at hih

/-- C3 (amended): of the five recurrence expanders, `op_expand_daily`,
`op_expand_monthly` and `op_expand_yearly` never return an error because a
local wall time falls in a DST gap or fold — whenever their calendar-side
steps succeed (the window timestamps convert and, for the daily loop, no
`succ_opt` overflows), they succeed for every DST-resolution behaviour,
resolving an ambiguous (fold) boundary to the earliest instant and dropping
an instance with a missing (gap) boundary; but `op_expand_weekly_days` and
`op_expand_monthly_setpos` return an error whenever any instance they
process has a local boundary that is not uniquely resolvable (gap or
fold). -/
theorem recurrence_dst_behaviour :
    (∀ (tz : Tz) (h0 h1 startMs endMs d0 dEnd : Int),
      tz.toLocalDay (startMs.tdiv 1000) = some d0 →
      tz.toLocalDay (endMs.tdiv 1000) = some dEnd →
      (∀ i : Int, d0 ≤ i → i < d0 + (((dEnd - d0 + 1).toNat : Nat) : Int) →
        tz.succFails i = false) →
      ∃ l, op_expand_daily tz h0 h1 startMs endMs = .ok l)
    ∧ (∀ (tz : Tz) (h0 h1 d : Int),
      tz.resolve d (asU32 (h0.tdiv 60)) (asU32 (h0.tmod 60)) = .missing →
      dailyDayIvs tz h0 h1 d = none)
    ∧ (∀ (tz : Tz) (h0 h1 d t1 t2 u : Int),
      asU32 (h0.tdiv 60) < 24 → asU32 (h0.tmod 60) < 60 →
      h1 ≥ 1440 → tz.succFails d = false →
      tz.resolve d (asU32 (h0.tdiv 60)) (asU32 (h0.tmod 60)) =
        .ambiguous t1 t2 →
      tz.resolve (d + 1) 0 0 = .single u →
      dailyDayIvs tz h0 h1 d = some (wrap64 (t1 * 1000), wrap64 (u * 1000)))
    ∧ (∀ (tz : Tz) (dayOfMonth h0 h1 startMs endMs y0 yE : Int) (m0 mE : Nat),
      1 ≤ dayOfMonth → dayOfMonth ≤ 31 →
      tz.toLocalYM (startMs.tdiv 1000) = some (y0, m0) →
      tz.toLocalYM (endMs.tdiv 1000) = some (yE, mE) →
      ∃ l, op_expand_monthly tz dayOfMonth h0 h1 startMs endMs = .ok l)
    ∧ (∀ (tz : Tz) (month day h0 h1 startMs endMs y0 yE : Int),
      1 ≤ month → month ≤ 12 → 1 ≤ day → day ≤ 31 →
      tz.toLocalY (startMs.tdiv 1000) = some y0 →
      tz.toLocalY (endMs.tdiv 1000) = some yE →
      ∃ l, op_expand_yearly tz month day h0 h1 startMs endMs = .ok l)
    ∧ (∀ (tz : Tz) (byWday : List Int)
        (startMin endMin startTs endTs d0 dEnd d : Int),
      tz.toLocalDay startTs = some d0 →
      tz.toLocalDay endTs = some dEnd →
      d0 ≤ d → d < dEnd →
      byWday.contains (weekdayOf d) = true →
      ((tz.resolve d (asU32 (startMin.tdiv 60))
          (asU32 (startMin.tmod 60))).toSingle = none
        ∨ (tz.resolve d (asU32 (endMin.tdiv 60))
          (asU32 (endMin.tmod 60))).toSingle = none) →
      isOk (op_expand_weekly_days tz startTs endTs byWday startMin endMin)
        = false)
    ∧ (∀ (tz : Tz) (h0 h1 : Int) (byWday bySetpos : List Int)
        (startMin endMin w sp d : Int),
      w ∈ byWday → sp ∈ bySetpos →
      setposSelect (setposDatesPure w 31 19723) sp = some d →
      ((tz.resolve d (asU32 h0) (asU32 startMin)).toSingle = none
        ∨ (tz.resolve d (asU32 h1) (asU32 endMin)).toSingle = none) →
      isOk (op_expand_monthly_setpos tz h0 h1 byWday bySetpos
        startMin endMin) = false) := by
  refine ⟨?_, ?_, ?_, ?_, ?_, ?_, ?_⟩
  · intro tz h0 h1 startMs endMs d0 dEnd hd0 hdE hsf
    obtain ⟨l, hl⟩ := dailyLoop_ok tz h0 h1 startMs endMs
      ((dEnd - d0 + 1).toNat) d0 hsf
    refine ⟨l, ?_⟩
    simp only [op_expand_daily, hd0, hdE]
    exact hl
  · intro tz h0 h1 d hres
    simp only [dailyDayIvs, hres, resolveEL, LocalRes.earliest, LocalRes.latest]
    split_ifs <;> rfl
  · intro tz h0 h1 d t1 t2 u hh hm h1440 hsf hres hend
    rw [dailyDayIvs_eval tz h0 h1 d (by omega) h1440 hsf, hres, hend]
    rfl
  · intro tz dayOfMonth h0 h1 startMs endMs y0 yE m0 mE h1d h31 hym1 hym2
    refine ⟨monthlyLoop tz dayOfMonth h0 h1 startMs endMs
      ((yE * 12 + (mE : Int)) - (y0 * 12 + (m0 : Int)) + 1).toNat y0 m0, ?_⟩
    simp only [op_expand_monthly]
    rw [if_neg (by omega : ¬ (dayOfMonth < 1 ∨ dayOfMonth > 31))]
    simp only [hym1, hym2]
  · intro tz month day h0 h1 startMs endMs y0 yE hm1 hm12 hd1 hd31 hy1 hy2
    refine ⟨yearlyLoop tz month day h0 h1 startMs endMs
      (yE - y0 + 1).toNat y0, ?_⟩
    simp only [op_expand_yearly]
    rw [if_neg (by omega : ¬ (month < 1 ∨ month > 12)),
      if_neg (by omega : ¬ (day < 1 ∨ day > 31))]
    simp only [hy1, hy2]
  · intro tz byWday startMin endMin startTs endTs d0 dEnd d hs he hled hltd
      hwd hbad
    simp only [op_expand_weekly_days, hs, he]
    exact weeklyLoop_err tz byWday startMin endMin d hwd hbad
      ((dEnd - d0).toNat) d0 hled (by omega)
  · intro tz h0 h1 byWday bySetpos startMin endMin w sp d hwmem hspmem hsel hbad
    simp only [op_expand_monthly_setpos]
    exact setposWdayLoop_err tz h0 h1 bySetpos startMin endMin w sp d hspmem
      hsel hbad byWday hwmem

/-- Witness for `recurrence_dst_behaviour`: in the concrete gap model
(America/New_York around 2024-03-10), a weekly Sunday rule at local 02:30
makes `op_expand_weekly_days` fail over the window covering that day. -/
theorem recurrence_dst_behaviour_witness :
    isOk (op_expand_weekly_days tzGapModel (19792 * 86400) (19793 * 86400)
      [7] 150 240) = false :=
  recurrence_dst_behaviour.2.2.2.2.2.1 tzGapModel [7] 150 240
    (19792 * 86400) (19793 * 86400) 19792 19793 19792
    (by rfl) (by rfl) (by decide) (by decide) (by rfl) (Or.inl (by rfl))

/-- Counterexample to C3 as stated: the same concrete run shows an expander
returning an error because a local wall time falls in a DST gap, instead of
resolving or dropping the instance. -/
theorem recurrence_dst_counterexample :
    op_expand_weekly_days tzGapModel (19792 * 86400) (19793 * 86400) [7]
      150 240 = .error "Ambiguous start time in timezone"
    ∧ op_expand_daily tzGapModel 150 240 (19792 * 86400 * 1000)
      (19793 * 86400 * 1000) = .ok [] := ⟨rfl, rfl⟩

/-- Success of the graph-indexing pass locates every indexed file ID among
the ok input rows or the initial accumulator. -/
theorem indexGraphBlobs_keys (rows : List (Except SGError GraphBlob)) :
    ∀ (acc g : List (String × LoadState (List Nat))),
    indexGraphBlobs rows acc = .ok g →
    ∀ fid : String, (g.any fun p => p.1 == fid) = true →
      (acc.any fun p => p.1 == fid) = true
      ∨ ∃ r ∈ rows, ∃ gb : GraphBlob, r = .ok gb ∧ gb.file_id = fid := by
  induction rows with
  | nil =>
    intro acc g h fid hany
    cases h
    exact Or.inl hany
  | cons row rest ih =>
    intro acc g h fid hany
    cases row with
    | error e =>
      simp only [indexGraphBlobs] at h
      cases h
    | ok gb =>
      simp only [indexGraphBlobs] at h
      by_cases hdup : (acc.any fun p => p.1 == gb.file_id) = true
      · rw [if_pos hdup] at h
        cases h
      · rw [if_neg hdup] at h
        rcases ih _ _ h fid hany with hacc | ⟨r, hr, gb2, hgb2, hfid⟩
        · rw [List.any_append] at hacc
          rcases (Bool.or_eq_true _ _).mp hacc with h1 | h1
          · exact Or.inl h1
          · refine Or.inr ⟨.ok gb, List.mem_cons_self _ _, gb, rfl, ?_⟩
            simpa using h1
        · exact Or.inr ⟨r, List.mem_cons_of_mem _ hr, gb2, hgb2, hfid⟩

/-- Success of the node-path pass means every ok node-path row's file is in
the graph index. -/
theorem indexNodePathBlobs_files
    (graphs : List (String × LoadState (List Nat)))
    (rows : List (Except SGError NodePathBlob)) :
    ∀ (acc np : List ((String × Nat) × LoadState (List (List Nat)))),
    indexNodePathBlobs graphs rows acc = .ok np →
    ∀ r ∈ rows, ∀ b : NodePathBlob, r = .ok b →
      (graphs.any fun p => p.1 == b.file_id) = true := by
  induction rows with
  | nil =>
    intro acc np _ r hr
    cases hr
  | cons row rest ih =>
    intro acc np h r hr b hb
    cases row with
    | error e =>
      simp only [indexNodePathBlobs] at h
      cases h
    | ok npb =>
      simp only [indexNodePathBlobs] at h
      by_cases hmiss : ¬ (graphs.any fun p => p.1 == npb.file_id) = true
      · rw [if_pos hmiss] at h
        cases h
      · rw [if_neg hmiss] at h
        rcases List.mem_cons.mp hr with rfl | hr2
        · cases hb
          exact Decidable.of_not_not hmiss
        · exact ih _ _ h r hr2 b hb

/-- C4 (amended): `State::new` validates node-path rows against the graph
map — construction can only succeed when every ok node-path row's file ID
has a graph row — but performs no such check for root-path rows. -/
theorem state_new_checks_node_paths (patterns : String → List String)
    (graphs : List (Except SGError GraphBlob))
    (nodePaths : List (Except SGError NodePathBlob))
    (rootPaths : List (Except SGError RootPathBlob))
    (h : isOk (StateNew patterns graphs nodePaths rootPaths) = true) :
    ∀ r ∈ nodePaths, ∀ b : NodePathBlob, r = .ok b →
      ∃ gr ∈ graphs, ∃ gb : GraphBlob, gr = .ok gb ∧ gb.file_id = b.file_id := by
  intro r hr b hb
  cases hg : indexGraphBlobs graphs [] with
  | error e =>
    simp [StateNew, hg, isOk] at h
  | ok g =>
    cases hnp : indexNodePathBlobs g nodePaths [] with
    | error e =>
      simp [StateNew, hg, hnp, isOk] at h
    | ok np =>
      have hfile := indexNodePathBlobs_files g nodePaths [] np hnp r hr b hb
      rcases indexGraphBlobs_keys graphs [] g hg b.file_id hfile with habs | hfound
      · cases habs
      · rcases hfound with ⟨gr, hgr, gb, hgb, hfid⟩
        exact ⟨gr, hgr, gb, hgb, hfid⟩

/-- Witness for `state_new_checks_node_paths` on a one-graph, one-node-path
input. -/
theorem state_new_checks_node_paths_witness :
    ∃ gr ∈ [(.ok ⟨"a", []⟩ : Except SGError GraphBlob)],
      ∃ gb : GraphBlob, gr = .ok gb ∧ gb.file_id = "a" :=
  state_new_checks_node_paths (fun k => [k]) [.ok ⟨"a", []⟩]
    [.ok ⟨"a", 0, []⟩] [] (by rfl) (.ok ⟨"a", 0, []⟩)
    (List.mem_singleton.mpr rfl) ⟨"a", 0, []⟩ rfl

/-- Counterexample to C4 as stated: a root-path row for file `"b"`, which
has no graph row, does not make `State::new` fail — construction
succeeds. -/
theorem state_new_root_path_unchecked_counterexample :
    isOk (StateNew (fun k => [k]) [.ok ⟨"a", []⟩] []
      [.ok ⟨"b", "X", []⟩]) = true
    ∧ StateNew (fun k => [k]) [.ok ⟨"a", []⟩] []
        [.ok (⟨"b", "X", []⟩ : RootPathBlob)] ≠
      .error (.UnknownFile "b") := by
  refine ⟨rfl, ?_⟩
  intro h
  rw [show StateNew (fun k => [k]) [.ok ⟨"a", []⟩] []
      [.ok (⟨"b", "X", []⟩ : RootPathBlob)] =
      .ok ⟨[("a", .Unloaded [])], [], [("X", [0])],
        [.Unloaded ("b", [])]⟩ from rfl] at h
  cases h

/-- C5 (amended): when a reference matches no node in its file, the
resolution driver returns `Error::Query` for that reference immediately,
aborting the whole query; later references are not processed and no rows
are produced. -/
theorem definitions_unresolved_aborts {ρ : Type}
    (loadNodes : SourcePos → Except SGError (List Nat))
    (resolve : SourcePos → List Nat → Except SGError (List ρ))
    (r : SourcePos) (rest : List SourcePos)
    (h : loadNodes r = .ok []) :
    definitions loadNodes resolve (r :: rest) = .error (.Query r) := by
  rw [definitions, h]
  rfl

/-- Witness for `definitions_unresolved_aborts` at a concrete reference
list. -/
theorem definitions_unresolved_aborts_witness :
    definitions (fun _ => (.ok [] : Except SGError (List Nat)))
      (fun _ _ => (.ok [] : Except SGError (List Nat)))
      [⟨['a'], 0, 1⟩] = .error (.Query ⟨['a'], 0, 1⟩) :=
  definitions_unresolved_aborts _ _ _ _ rfl

/-- Counterexample to C5 as stated: with the first reference unresolvable
and the second resolvable, the driver errors out instead of continuing and
producing a row for the second reference. -/
theorem definitions_continue_counterexample :
    definitions
      (fun p => if p.start_byte = 0 then (.ok [] : Except SGError (List Nat))
                else .ok [1])
      (fun _ _ => (.ok [0] : Except SGError (List Nat)))
      [⟨['a'], 0, 1⟩, ⟨['b'], 2, 3⟩] = .error (.Query ⟨['a'], 0, 1⟩) := rfl

/-- C10: `decompress_if_needed` returns the input bytes verbatim when the
data is shorter than 4 bytes or lacks the Zstd magic, and also when the
magic is present but the (arbitrary) Zstd decompressor fails; the function
itself never fails. -/
theorem decompress_if_needed_total
    (zstd : List Nat → Nat → Except Unit (List Nat)) (blob : Blob) :
    (blob.data.length < 4 ∨ blob.data.take 4 ≠ zstdMagic →
      decompress_if_needed zstd blob = blob.data)
    ∧ (∀ e : Unit, zstd blob.data blob.uncompressed_len = .error e →
      decompress_if_needed zstd blob = blob.data) := by
  constructor
  · intro h
    unfold decompress_if_needed
    rw [if_pos h]
  · intro e he
    unfold decompress_if_needed
    split_ifs with h
    · rfl
    · rw [he]

/-- Witness for `decompress_if_needed_total`: a magic-prefixed blob with a
failing decompressor comes back unchanged. -/
theorem decompress_if_needed_total_witness :
    decompress_if_needed (fun _ _ => .error ())
      ⟨10, [0x28, 0xb5, 0x2f, 0xfd, 1]⟩ = [0x28, 0xb5, 0x2f, 0xfd, 1] :=
  (decompress_if_needed_total (fun _ _ => .error ())
    ⟨10, [0x28, 0xb5, 0x2f, 0xfd, 1]⟩).2 () rfl

/-- The stable sort by interval start produces a list sorted by start. -/
theorem sortIvs_sorted (l : List (Int × Int)) :
    List.Sorted (fun p q : Int × Int => p.1 ≤ q.1) (sortIvs l) := by
  haveI : IsTotal (Int × Int) (fun p q : Int × Int => p.1 ≤ q.1) :=
    ⟨fun a b => le_total a.1 b.1⟩
  haveI : IsTrans (Int × Int) (fun p q : Int × Int => p.1 ≤ q.1) :=
    ⟨fun _ _ _ hab hbc => le_trans hab hbc⟩
  exact List.sorted_insertionSort _ _

/-- Sorting permutes the input list. -/
theorem sortIvs_perm (l : List (Int × Int)) : (sortIvs l).Perm l :=
  List.perm_insertionSort _ _

/-- Sorting an already sorted list is the identity. -/
theorem sortIvs_eq_self {l : List (Int × Int)}
    (h : List.Sorted (fun p q : Int × Int => p.1 ≤ q.1) l) : sortIvs l = l :=
  h.insertionSort_eq

/-- The merge loop keeps the current interval's start and can only grow its
end. -/
theorem mergeIvs_head (l : List (Int × Int)) :
    ∀ c : Int × Int, ∃ e2 t, mergeIvs c l = (c.1, e2) :: t ∧ c.2 ≤ e2 := by
  induction l with
  | nil =>
    intro c
    exact ⟨c.2, [], by rw [mergeIvs], le_refl _⟩
  | cons hd tl ih =>
    intro c
    obtain ⟨s, e⟩ := hd
    by_cases hc : c.2 ≥ s
    · obtain ⟨e2, t, heq, hle⟩ := ih (c.1, max c.2 e)
      refine ⟨e2, t, ?_, ?_⟩
      · rw [mergeIvs, if_pos hc]
        simpa using heq
      · exact le_trans (le_max_left _ _) (by simpa using hle)
    · exact ⟨c.2, mergeIvs (s, e) tl, by rw [mergeIvs, if_neg hc], le_refl _⟩

/-- The merge loop preserves well-formedness of every emitted interval. -/
theorem mergeIvs_wf (l : List (Int × Int)) :
    ∀ c : Int × Int, c.1 < c.2 → (∀ p ∈ l, p.1 < p.2) →
    ∀ p ∈ mergeIvs c l, p.1 < p.2 := by
  induction l with
  | nil =>
    intro c hc _ p hp
    rw [mergeIvs] at hp
    rcases List.mem_singleton.mp hp with rfl
    exact hc
  | cons hd tl ih =>
    intro c hc hl p hp
    obtain ⟨s, e⟩ := hd
    rw [mergeIvs] at hp
    split_ifs at hp with hge
    · refine ih (c.1, max c.2 e) ?_ (fun q hq => hl q (List.mem_cons_of_mem _ hq)) p hp
      exact lt_of_lt_of_le hc (le_max_left _ _)
    · rcases List.mem_cons.mp hp with rfl | hp2
      · exact hc
      · exact ih (s, e) (hl (s, e) (List.mem_cons_self _ _))
          (fun q hq => hl q (List.mem_cons_of_mem _ hq)) p hp2

/-- On a list sorted by start, the merge loop emits intervals separated by
strict gaps. -/
theorem mergeIvs_chain (l : List (Int × Int)) :
    ∀ c : Int × Int,
    List.Sorted (fun p q : Int × Int => p.1 ≤ q.1) (c :: l) →
    List.Chain' gapRel (mergeIvs c l) := by
  induction l with
  | nil =>
    intro c _
    rw [mergeIvs]
    exact List.chain'_singleton _
  | cons hd tl ih =>
    intro c hs
    obtain ⟨s, e⟩ := hd
    rw [List.sorted_cons] at hs
    obtain ⟨hcb, hs2⟩ := hs
    rw [mergeIvs]
    split_ifs with hge
    · apply ih (c.1, max c.2 e)
      rw [List.sorted_cons]
      refine ⟨?_, (List.sorted_cons.mp hs2).2⟩
      intro b hb
      exact hcb b (List.mem_cons_of_mem _ hb)
    · obtain ⟨e2, t, heq, _⟩ := mergeIvs_head tl (s, e)
      rw [heq, List.chain'_cons]
      refine ⟨?_, ?_⟩
      · show c.2 < s
        omega
      · rw [← heq]
        exact ih (s, e) hs2

/-- On a strictly gapped list the merge loop is the identity. -/
theorem mergeIvs_of_gapped (l : List (Int × Int)) :
    ∀ c : Int × Int, List.Chain' gapRel (c :: l) → mergeIvs c l = c :: l := by
  induction l with
  | nil =>
    intro c _
    rw [mergeIvs]
  | cons hd tl ih =>
    intro c hch
    obtain ⟨s, e⟩ := hd
    rw [List.chain'_cons] at hch
    obtain ⟨hg, hch2⟩ := hch
    have hg2 : c.2 < s := hg
    rw [mergeIvs, if_neg (by omega), ih (s, e) hch2]

/-- In a well-formed strictly gapped list the head's end precedes every
later start. -/
theorem gapped_head_lt (l : List (Int × Int)) :
    ∀ a : Int × Int, (∀ p ∈ a :: l, p.1 < p.2) →
    List.Chain' gapRel (a :: l) → ∀ b ∈ l, a.2 < b.1 := by
  induction l with
  | nil =>
    intro a _ _ b hb
    cases hb
  | cons c tl ih =>
    intro a hwf hch b hb
    rw [List.chain'_cons] at hch
    obtain ⟨hg, hch2⟩ := hch
    rcases List.mem_cons.mp hb with rfl | hb2
    · exact hg
    · have hc2 := ih c (fun p hp => hwf p (List.mem_cons_of_mem _ hp)) hch2 b hb2
      have hcwf : c.1 < c.2 := hwf c (List.mem_cons_of_mem _ (List.mem_cons_self _ _))
      have hg2 : a.2 < c.1 := hg
      show a.2 < b.1
      omega

/-- A well-formed strictly gapped chain is pairwise gapped. -/
theorem gapped_pairwise (l : List (Int × Int)) (hwf : ∀ p ∈ l, p.1 < p.2)
    (hch : List.Chain' gapRel l) : List.Pairwise gapRel l := by
  induction l with
  | nil => exact List.Pairwise.nil
  | cons a tl ih =>
    refine List.Pairwise.cons (gapped_head_lt tl a hwf hch)
      (ih (fun p hp => hwf p (List.mem_cons_of_mem _ hp)) hch.tail)

/-- A well-formed strictly gapped chain is sorted by start. -/
theorem gapped_sorted (l : List (Int × Int)) (hwf : ∀ p ∈ l, p.1 < p.2)
    (hch : List.Chain' gapRel l) :
    List.Sorted (fun p q : Int × Int => p.1 ≤ q.1) l := by
  refine List.Pairwise.imp_of_mem ?_ (gapped_pairwise l hwf hch)
  intro a b ha _ hg
  have h1 := hwf a ha
  have h2 : a.2 < b.1 := hg
  omega

/-- Sort-then-merge preserves well-formedness. -/
theorem normCore_wf (l : List (Int × Int)) (hl : ∀ p ∈ l, p.1 < p.2) :
    ∀ p ∈ normCore l, p.1 < p.2 := by
  intro p hp
  rw [normCore] at hp
  cases hs : sortIvs l with
  | nil =>
    rw [hs] at hp
    cases hp
  | cons c rest =>
    rw [hs] at hp
    have hmem : ∀ q ∈ c :: rest, q.1 < q.2 := by
      intro q hq
      apply hl
      apply (sortIvs_perm l).mem_iff.mp
      rw [hs]
      exact hq
    exact mergeIvs_wf rest c (hmem c (List.mem_cons_self _ _))
      (fun q hq => hmem q (List.mem_cons_of_mem _ hq)) p hp

/-- Sort-then-merge produces a strictly gapped chain. -/
theorem normCore_chain (l : List (Int × Int)) :
    List.Chain' gapRel (normCore l) := by
  rw [normCore]
  cases hs : sortIvs l with
  | nil => exact List.chain'_nil
  | cons c rest =>
    apply mergeIvs_chain
    rw [← hs]
    exact sortIvs_sorted l

/-- Sort-then-merge is the identity on well-formed strictly gapped lists. -/
theorem normCore_of_gapped (l : List (Int × Int))
    (hwf : ∀ p ∈ l, p.1 < p.2) (hch : List.Chain' gapRel l) :
    normCore l = l := by
  rw [normCore, sortIvs_eq_self (gapped_sorted l hwf hch)]
  cases l with
  | nil => rfl
  | cons c rest => exact mergeIvs_of_gapped rest c hch

/-- The extraction loop of `op_normalize_intervals` on encoded integer
pairs decodes them and drops degenerates. -/
theorem parseWfIvs_enc (xs : List (Int × Int)) :
    parseWfIvs (xs.map fun p => encIv p.1 p.2) =
      .ok (xs.filter fun p => decide (p.1 < p.2)) := by
  induction xs with
  | nil => rfl
  | cons p t ih =>
    obtain ⟨s, e⟩ := p
    simp only [encIv] at ih
    simp only [List.map_cons, parseWfIvs, encIv, getSlice, getInt, ih,
      List.filter_cons, decide_eq_true_eq]
    split_ifs <;> rfl

/-- `op_normalize_intervals` on an encoded interval list computes
`normalizeIvsFn`. -/
theorem op_normalize_eval (xs : List (Int × Int)) :
    op_normalize_intervals (encIvs xs) = .ok (encIvs (normalizeIvsFn xs)) := by
  cases xs with
  | nil => rfl
  | cons p t =>
    simp only [op_normalize_intervals, encIvs, getSlice, List.map_cons,
      List.isEmpty_cons, Bool.false_eq_true, if_false]
    rw [show (encIv p.1 p.2 :: List.map (fun q => encIv q.1 q.2) t) =
        ((p :: t).map fun q => encIv q.1 q.2) from rfl, parseWfIvs_enc]
    rfl

/-- C8: `op_normalize_intervals` computes `normalizeIvsFn`, is idempotent,
and its result is a list of non-degenerate intervals that is sorted by
start and pairwise separated by strict gaps (hence pairwise disjoint and
non-adjacent). -/
theorem normalize_intervals_idempotent (xs : List (Int × Int)) :
    op_normalize_intervals (encIvs xs) = .ok (encIvs (normalizeIvsFn xs))
    ∧ op_normalize_intervals (encIvs (normalizeIvsFn xs)) =
        .ok (encIvs (normalizeIvsFn xs))
    ∧ normalizeIvsFn (normalizeIvsFn xs) = normalizeIvsFn xs
    ∧ List.Pairwise gapRel (normalizeIvsFn xs)
    ∧ List.Pairwise (fun p q : Int × Int => p.1 < q.1) (normalizeIvsFn xs)
    ∧ ∀ p ∈ normalizeIvsFn xs, p.1 < p.2 := by
  have hwf : ∀ p ∈ normalizeIvsFn xs, p.1 < p.2 := by
    apply normCore_wf
    intro p hp
    simpa using (List.mem_filter.mp hp).2
  have hch : List.Chain' gapRel (normalizeIvsFn xs) := normCore_chain _
  have hfix : (normalizeIvsFn xs).filter (fun p => decide (p.1 < p.2)) =
      normalizeIvsFn xs :=
    List.filter_eq_self.mpr (fun p hp => by simpa using hwf p hp)
  have hid : normalizeIvsFn (normalizeIvsFn xs) = normalizeIvsFn xs := by
    conv_lhs => rw [normalizeIvsFn]
    rw [hfix]
    exact normCore_of_gapped _ hwf hch
  have hpw := gapped_pairwise _ hwf hch
  refine ⟨op_normalize_eval xs, ?_, hid, hpw, ?_, hwf⟩
  · rw [op_normalize_eval (normalizeIvsFn xs), hid]
  · refine List.Pairwise.imp_of_mem ?_ hpw
    intro a b ha _ hg
    have h1 := hwf a ha
    have h2 : a.2 < b.1 := hg
    omega

/-- The fuel-based digit expansion agrees with `Nat.digits 10` whenever the
fuel dominates the number. -/
theorem toDigitsRev_eq_digits : ∀ fuel n : Nat, n ≤ fuel →
    toDigitsRev fuel n = Nat.digits 10 n := by
  intro fuel
  induction fuel with
  | zero =>
    intro n h
    have h0 : n = 0 := by omega
    subst h0
    simp [toDigitsRev]
  | succ f ih =>
    intro n h
    by_cases hn : n = 0
    · subst hn
      simp [toDigitsRev]
    · rw [toDigitsRev, if_neg hn,
        Nat.digits_def' (by norm_num : 1 < 10) (Nat.pos_of_ne_zero hn)]
      have hdiv : n / 10 ≤ f := by
        have := Nat.div_lt_self (Nat.pos_of_ne_zero hn) (by norm_num : 1 < 10)
        omega
      rw [ih (n / 10) hdiv]

/-- Facts about decimal digit characters. -/
theorem digitChar_facts : ∀ d < 10, (Nat.digitChar d).isDigit = true
    ∧ Nat.digitChar d ≠ ':' ∧ Nat.digitChar d ≠ '+'
    ∧ (Nat.digitChar d).toNat - 48 = d := by
  decide

/-- Every character of the printed decimal form is a digit; in particular
it is neither a colon nor a plus sign. -/
theorem natChars_chars (n : Nat) : ∀ c ∈ natChars n,
    c.isDigit = true ∧ c ≠ ':' ∧ c ≠ '+' := by
  intro c hc
  rw [natChars] at hc
  split_ifs at hc with h0
  · rcases List.mem_singleton.mp hc with rfl
    refine ⟨by decide, by decide, by decide⟩
  · rw [toDigitsRev_eq_digits n n (le_refl n)] at hc
    rw [List.mem_reverse, List.mem_map] at hc
    obtain ⟨d, hd, rfl⟩ := hc
    have hlt : d < 10 := Nat.digits_lt_base (by norm_num) hd
    obtain ⟨h1, h2, h3, _⟩ := digitChar_facts d hlt
    exact ⟨h1, h2, h3⟩

/-- Folding the decimal accumulator over a most-significant-first digit
rendering recovers the positional value. -/
theorem foldl_digitChar : ∀ L : List Nat, (∀ d ∈ L, d < 10) → ∀ a : Nat,
    ((L.map Nat.digitChar).reverse).foldl
        (fun acc c => acc * 10 + (c.toNat - 48)) a
      = a * 10 ^ L.length + Nat.ofDigits 10 L := by
  intro L
  induction L with
  | nil =>
    intro _ a
    simp [Nat.ofDigits]
  | cons d t ih =>
    intro hL a
    have hd : d < 10 := hL d (List.mem_cons_self _ _)
    have h48 : (Nat.digitChar d).toNat - 48 = d := (digitChar_facts d hd).2.2.2
    rw [List.map_cons, List.reverse_cons, List.foldl_append,
      ih (fun q hq => hL q (List.mem_cons_of_mem _ hq)) a,
      List.foldl_cons, List.foldl_nil, h48, Nat.ofDigits_cons,
      List.length_cons]
    ring

/-- Parsing the canonical decimal rendering of a `u32` value recovers the
value. -/
theorem parseU32_natChars (n : Nat) (h : n < 2 ^ 32) :
    parseU32 (natChars n) = some n := by
  by_cases h0 : n = 0
  · subst h0
    rfl
  · have hform : natChars n = ((Nat.digits 10 n).map Nat.digitChar).reverse := by
      rw [natChars, if_neg h0, toDigitsRev_eq_digits n n (le_refl n)]
    have hne : natChars n ≠ [] := by
      rw [hform]
      simp [Nat.digits_ne_nil_iff_ne_zero, h0]
    obtain ⟨c, cs, hcons⟩ := List.exists_cons_of_ne_nil hne
    have hc := natChars_chars n c (by rw [hcons]; exact List.mem_cons_self _ _)
    have hall : ((c :: cs).all fun ch => ch.isDigit) = true := by
      rw [← hcons]
      rw [List.all_eq_true]
      intro ch hch
      exact (natChars_chars n ch hch).1
    have hv : (c :: cs).foldl (fun acc ch => acc * 10 + (ch.toNat - 48)) 0
        = n := by
      rw [← hcons, hform,
        foldl_digitChar (Nat.digits 10 n)
          (fun d hd => Nat.digits_lt_base (by norm_num) hd) 0]
      simp [Nat.ofDigits_digits]
    rw [hcons]
    simp only [parseU32, if_neg hc.2.2]
    rw [if_neg (by simp : ¬ ((c :: cs).isEmpty = true))]
    rw [if_pos hall, hv, if_pos h]

/-- `Iterator::position` on a list whose prefix misses the predicate finds
the first hit right after the prefix. -/
theorem position_append (p : Char → Bool) (x : Char) (post : List Char)
    (hx : p x = true) : ∀ pre : List Char, (∀ c ∈ pre, p c = false) →
    position p (pre ++ x :: post) = some pre.length := by
  intro pre
  induction pre with
  | nil =>
    intro _
    simp [position, hx]
  | cons c t ih =>
    intro hpre
    have hc : p c = false := hpre c (List.mem_cons_self _ _)
    rw [List.cons_append, position, if_neg (by simp [hc]),
      ih (fun q hq => hpre q (List.mem_cons_of_mem _ hq))]
    simp

/-- Dropping past a marker element after a prefix leaves the suffix. -/
theorem drop_after (l1 l2 : List Char) (x : Char) :
    (l1 ++ x :: l2).drop (l1.length + 1) = l2 := by
  rw [show l1 ++ x :: l2 = (l1 ++ [x]) ++ l2 by simp]
  rw [show l1.length + 1 = (l1 ++ [x]).length by simp]
  exact List.drop_left _ _

/-- C9: printing a source position as `file:start:end` and reparsing it
recovers the file ID (even when it contains colons) and both `u32` byte
offsets, because the parser splits at the last two colons. -/
theorem source_pos_round_trip (f : List Char) (sb eb : Nat)
    (hs : sb < 2 ^ 32) (he : eb < 2 ^ 32) :
    SourcePos.fromStr (SourcePos.display ⟨f, sb, eb⟩) = .ok ⟨f, sb, eb⟩ := by
  have hd1 := natChars_chars sb
  have hd2 := natChars_chars eb
  have hrev : (SourcePos.display ⟨f, sb, eb⟩).reverse =
      (natChars eb).reverse ++ ':' ::
        ((natChars sb).reverse ++ ':' :: f.reverse) := by
    show (f ++ ':' :: (natChars sb ++ ':' :: natChars eb)).reverse = _
    simp
  have hmiss2 : ∀ c ∈ (natChars eb).reverse, (c == ':') = false := by
    intro c hcm
    rw [List.mem_reverse] at hcm
    simpa using (hd2 c hcm).2.1
  have hmiss1 : ∀ c ∈ (natChars sb).reverse, (c == ':') = false := by
    intro c hcm
    rw [List.mem_reverse] at hcm
    simpa using (hd1 c hcm).2.1
  have hpos1 : position (fun c => c == ':')
      ((natChars eb).reverse ++ ':' ::
        ((natChars sb).reverse ++ ':' :: f.reverse)) =
      some (natChars eb).reverse.length :=
    position_append _ ':' _ (by simp) _ hmiss2
  have hpos2 : position (fun c => c == ':')
      ((natChars sb).reverse ++ ':' :: f.reverse) =
      some (natChars sb).reverse.length :=
    position_append _ ':' _ (by simp) _ hmiss1
  simp only [SourcePos.fromStr, hrev, hpos1]
  rw [List.take_left, drop_after]
  simp only [hpos2]
  rw [List.take_left, drop_after]
  rw [List.reverse_reverse, List.reverse_reverse, List.reverse_reverse]
  rw [parseU32_natChars sb hs, parseU32_natChars eb he]

/-- Witness for `source_pos_round_trip` on a file ID containing a colon. -/
theorem source_pos_round_trip_witness :
    SourcePos.fromStr (SourcePos.display ⟨['a', ':', 'b'], 13, 14⟩) =
      .ok ⟨['a', ':', 'b'], 13, 14⟩ :=
  source_pos_round_trip ['a', ':', 'b'] 13 14 (by decide) (by decide)

end Cozo
